import Mathlib

/-!
Shallow embedding of the exercisediary workout repository and day-window
query service.

The store is modelled as in-memory relational tables (`DB`), identifiers as
naturals drawn from a per-store counter (`nextId`, standing in for generated
UUIDs), timestamps as milliseconds (`Nat`, local wall-clock with zero offset),
and SQL decimal / JS number values as rationals.  Each TypeScript function of
the repository layer (`src/data/workouts.ts`, the schema and query files) and
of the action layer (the zod schemas of the create/update server actions) is
translated into an executable Lean function.  Store inserts are numbered in
issue order so that a simulated failure of the n-th insert statement
(`failOn`) can be expressed; the code issues independent statements with no
transaction, so a failure keeps every row written by the earlier statements.
-/

deriving instance DecidableEq for Except

namespace ExerciseDiary

/-- Milliseconds in one calendar day. -/
def dayMs : Nat := 86400000

/-- Row of the `exercises` catalog table (id, name; timestamps omitted). -/
structure ExerciseRow where
  id : Nat
  name : String
deriving DecidableEq

/-- Row of the `workouts` table. -/
structure WorkoutRow where
  id : Nat
  userId : String
  name : String
  startedAt : Nat
  completedAt : Option Nat
deriving DecidableEq

/-- Row of the `workout_exercises` join table. -/
structure WorkoutExerciseRow where
  id : Nat
  workoutId : Nat
  exerciseId : Nat
  order : Nat
deriving DecidableEq

/-- Row of the `sets` table; `weight` is the `decimal(10, 2)` column, `reps`
the integer column (JS numbers in the source, hence modelled as `ℚ`).  Every
insert stores the weight rounded to the column's scale of 2 fractional
digits (`quantize2`); the precision-10 overflow bound (a rounded weight of
absolute value at least 10^8 raises a store error) is outside this model. -/
structure SetRow where
  id : Nat
  workoutExerciseId : Nat
  setNumber : Nat
  weight : Option ℚ
  reps : Option ℚ
deriving DecidableEq

/-- The relational store: the four tables plus the id generator. -/
structure DB where
  exercises : List ExerciseRow
  workouts : List WorkoutRow
  workoutExercises : List WorkoutExerciseRow
  sets : List SetRow
  nextId : Nat
deriving DecidableEq

/-- One set of the `CreateWorkoutData.exercises[i].sets` input
(`{weight?: number, reps?: number}`); also the shape the edit page emits. -/
structure SetSpec where
  weight : Option ℚ
  reps : Option ℚ
deriving DecidableEq

/-- One exercise of the create input (`{name, sets}`). -/
structure ExerciseSpec where
  name : String
  sets : List SetSpec
deriving DecidableEq

/-- The `CreateWorkoutData` input of `createWorkout` in `src/data/workouts.ts`. -/
structure CreateWorkoutData where
  name : String
  startedAt : Nat
  exercises : List ExerciseSpec
deriving DecidableEq

/-- The update-action input of the `updateWorkout` server action
(id, name, startedAt, optional completedAt, exercises). -/
structure UpdateWorkoutData where
  id : Nat
  name : String
  startedAt : Nat
  completedAt : Option Nat
  exercises : List ExerciseSpec
deriving DecidableEq

/-- Errors thrown by the repository layer: `throw new Error('Unauthorized')`
when no identity is present, and any underlying store failure. -/
inductive DbErr where
  | unauthorized
  | storeFailure
deriving DecidableEq

/-- Failure schedule that never fails an insert statement. -/
def noFail : Nat → Bool := fun _ => false

/-- Stable ascending insertion by a natural-number key (model of SQL
`ORDER BY key ASC`). -/
def insertAsc (key : α → Nat) (x : α) : List α → List α
  | [] => [x]
  | y :: ys => if key x ≤ key y then x :: y :: ys else y :: insertAsc key x ys

/-- Ascending sort by key (model of `ORDER BY key ASC`). -/
def sortAsc (key : α → Nat) : List α → List α
  | [] => []
  | x :: xs => insertAsc key x (sortAsc key xs)

/-- Stable descending insertion by a natural-number key. -/
def insertDesc (key : α → Nat) (x : α) : List α → List α
  | [] => [x]
  | y :: ys => if key y ≤ key x then x :: y :: ys else y :: insertDesc key x ys

/-- Descending sort by key (model of `ORDER BY key DESC`). -/
def sortDesc (key : α → Nat) : List α → List α
  | [] => []
  | x :: xs => insertDesc key x (sortDesc key xs)

/-- A `workout_exercises` row hydrated with its catalog row (`with: {exercise:
true}`, `none` only when referential integrity is broken) and its sets ordered
ascending by `setNumber`. -/
structure HydratedWE where
  row : WorkoutExerciseRow
  exercise : Option ExerciseRow
  sets : List SetRow
deriving DecidableEq

/-- A workout hydrated with its `workoutExercises` ordered ascending by
`order`, as returned by the Drizzle relational queries. -/
structure HydratedWorkout where
  row : WorkoutRow
  workoutExercises : List HydratedWE
deriving DecidableEq

/-- Hydrate one join row: join the catalog row by id and collect its sets
ordered by `setNumber` ascending. -/
def hydrateWE (db : DB) (we : WorkoutExerciseRow) : HydratedWE :=
  { row := we
    exercise := db.exercises.find? (fun e => e.id == we.exerciseId)
    sets := sortAsc (fun s => s.setNumber)
      (db.sets.filter (fun s => s.workoutExerciseId == we.id)) }

/-- Hydrate one workout: its join rows ordered by `order` ascending, each
hydrated. -/
def hydrateWorkout (db : DB) (w : WorkoutRow) : HydratedWorkout :=
  { row := w
    workoutExercises :=
      (sortAsc (fun we => we.order)
        (db.workoutExercises.filter (fun we => we.workoutId == w.id))).map
        (hydrateWE db) }

/-- `startOfDay`: the date with `setHours(0, 0, 0, 0)` (zero-offset wall clock). -/
def startOfDayMs (date : Nat) : Nat := date / dayMs * dayMs

/-- `endOfDay`: the date with `setHours(23, 59, 59, 999)`. -/
def endOfDayMs (date : Nat) : Nat := startOfDayMs date + (dayMs - 1)

/-- `getUserWorkoutsForDate` (part_000): requires an authenticated user, then
selects the user's workouts with `startOfDay <= startedAt` and
`startedAt < endOfDay` (strict `lt` against 23:59:59.999), hydrated, ordered
descending by `startedAt`. -/
def getUserWorkoutsForDate (auth : Option String) (date : Nat) (db : DB) :
    Except DbErr (List HydratedWorkout) :=
  match auth with
  | none => .error .unauthorized
  | some userId =>
    let s := startOfDayMs date
    let e := endOfDayMs date
    .ok ((sortDesc (fun w => w.startedAt)
        (db.workouts.filter (fun w =>
          w.userId == userId && decide (s ≤ w.startedAt) && decide (w.startedAt < e)))).map
      (hydrateWorkout db))

/-- `getUserWorkoutById` (part_000): requires an authenticated user, then
`findFirst` with `id = workoutId AND userId = userId`, hydrated; `none` when
no such row. -/
def getUserWorkoutById (auth : Option String) (workoutId : Nat) (db : DB) :
    Except DbErr (Option HydratedWorkout) :=
  match auth with
  | none => .error .unauthorized
  | some userId =>
    .ok ((db.workouts.find? (fun w => w.id == workoutId && w.userId == userId)).map
      (hydrateWorkout db))

/-- Scale-2 rounding performed by the `decimal(10, 2)` weight column on
insert: round to 2 fractional digits, half away from zero, as postgres
`numeric` does.  Implemented on the numerator and denominator with integer
arithmetic so that it evaluates. -/
def quantize2 (q : ℚ) : ℚ :=
  if 0 ≤ q.num then mkRat (((q.num.toNat * 200 + q.den) / (2 * q.den) : Nat) : Int) 100
  else mkRat (-(((q.num.natAbs * 200 + q.den) / (2 * q.den) : Nat) : Int)) 100

/-- One input set as the store retains it: the weight rounded by the
`decimal(10, 2)` column, the reps unchanged. -/
def quantizeSet (s : SetSpec) : SetSpec := ⟨s.weight.map quantize2, s.reps⟩

/-- One input exercise as the store retains it. -/
def quantizeExercise (ex : ExerciseSpec) : ExerciseSpec :=
  ⟨ex.name, ex.sets.map quantizeSet⟩

/-- Every weight of the document is already at scale 2 (a fixed point of the
column's rounding), so storing it loses nothing. -/
def weightsScale2 (d : CreateWorkoutData) : Bool :=
  d.exercises.all (fun ex => ex.sets.all (fun s => s.weight.all (fun w => quantize2 w == w)))

/-- The rows of one `db.insert(sets).values([...])` statement: the spec's sets
in order, `setNumber` assigned `setIndex + 1`, reps copied, and the weight
stored as the `decimal(10, 2)` column keeps it — rounded to scale 2. -/
def mkSetRows (weId : Nat) : Nat → Nat → List SetSpec → List SetRow
  | _, _, [] => []
  | idBase, n, s :: rest =>
    ⟨idBase, weId, n, s.weight.map quantize2, s.reps⟩ ::
      mkSetRows weId (idBase + 1) (n + 1) rest

/-- The catalog step of `createWorkout`: `findFirst` by exact name; when
absent, one insert statement (statement number `op`) creating the row.
Returns the catalog row id, or `none` when that insert failed. -/
def lookupOrCreateExercise (failOn : Nat → Bool) (nm : String) (op : Nat) (db : DB) :
    DB × Nat × Option Nat :=
  match db.exercises.find? (fun e => e.name == nm) with
  | some e => (db, op, some e.id)
  | none =>
    if failOn op then (db, op + 1, none)
    else
      (({ db with
          exercises := db.exercises ++ [⟨db.nextId, nm⟩]
          nextId := db.nextId + 1 } : DB), op + 1, some db.nextId)

/-- The per-exercise loop of `createWorkout`: for the exercise at position
`idx`, resolve the catalog row, insert the join row with `order := idx`, and
when the set list is non-empty insert all its sets in one statement.  `op`
numbers the insert statements; the `Bool` reports a store failure, in which
case the rows written by the earlier statements are kept (the source issues
independent statements with no transaction). -/
def createLoop (failOn : Nat → Bool) (wid : Nat) :
    Nat → Nat → List ExerciseSpec → DB → DB × Nat × Bool
  | _, op, [], db => (db, op, false)
  | idx, op, ex :: rest, db =>
    match lookupOrCreateExercise failOn ex.name op db with
    | (db1, op1, none) => (db1, op1, true)
    | (db1, op1, some eid) =>
      if failOn op1 then (db1, op1 + 1, true)
      else
        let we : WorkoutExerciseRow := ⟨db1.nextId, wid, eid, idx⟩
        let db2 : DB := { db1 with
          workoutExercises := db1.workoutExercises ++ [we]
          nextId := db1.nextId + 1 }
        if ex.sets.isEmpty then createLoop failOn wid (idx + 1) (op1 + 1) rest db2
        else if failOn (op1 + 1) then (db2, op1 + 2, true)
        else
          let db3 : DB := { db2 with
            sets := db2.sets ++ mkSetRows we.id db2.nextId 1 ex.sets
            nextId := db2.nextId + ex.sets.length }
          createLoop failOn wid (idx + 1) (op1 + 2) rest db3

/-- `createWorkout` (`src/data/workouts.ts`): requires an authenticated user,
inserts the workout row (statement 0), then runs the per-exercise loop.  On a
store failure the state mutated so far is returned alongside the error. -/
def createWorkout (auth : Option String) (failOn : Nat → Bool)
    (data : CreateWorkoutData) (db : DB) : DB × Except DbErr WorkoutRow :=
  match auth with
  | none => (db, .error .unauthorized)
  | some userId =>
    if failOn 0 then (db, .error .storeFailure)
    else
      let w : WorkoutRow := ⟨db.nextId, userId, data.name, data.startedAt, none⟩
      let db1 : DB := { db with workouts := db.workouts ++ [w], nextId := db.nextId + 1 }
      match createLoop failOn w.id 0 1 data.exercises db1 with
      | (db2, _, false) => (db2, .ok w)
      | (db2, _, true) => (db2, .error .storeFailure)

/-- The edit page's `workoutData` shape (`[workoutId]/page.tsx` lines 23-35). -/
structure WorkoutEdit where
  id : Nat
  name : String
  startedAt : Nat
  completedAt : Option Nat
  exercises : List ExerciseSpec
deriving DecidableEq

/-- The edit page's flattening of a hydrated workout: exercise name from the
joined catalog row (always present under referential integrity — the page
reads `we.exercise.name` unconditionally), weight via truthiness-guarded
`parseFloat` of the stored decimal and reps via `?? undefined`, both the
identity at this abstraction. -/
def flattenHydrated (h : HydratedWorkout) : WorkoutEdit :=
  { id := h.row.id
    name := h.row.name
    startedAt := h.row.startedAt
    completedAt := h.row.completedAt
    exercises := h.workoutExercises.map (fun we =>
      { name := (we.exercise.map (fun e => e.name)).getD ""
        sets := we.sets.map (fun s => ⟨s.weight, s.reps⟩) }) }

/-- zod `weight: z.number().positive().optional()` with its default message. -/
def validateWeight : Option ℚ → Option String
  | none => none
  | some w => if w ≤ 0 then some "Number must be greater than 0" else none

/-- zod `reps: z.number().int().positive().optional()` with its default
messages, checked in chain order. -/
def validateReps : Option ℚ → Option String
  | none => none
  | some r =>
    if r.den ≠ 1 then some "Expected integer, received float"
    else if r ≤ 0 then some "Number must be greater than 0" else none

/-- First issue of one set object: weight, then reps. -/
def validateSetSpec (s : SetSpec) : Option String :=
  match validateWeight s.weight with
  | some m => some m
  | none => validateReps s.reps

/-- First issue over a list (zod reports `error.issues[0]`, the first
offending field in traversal order). -/
def firstErr (f : α → Option String) : List α → Option String
  | [] => none
  | x :: xs =>
    match f x with
    | some m => some m
    | none => firstErr f xs

/-- First issue of one exercise object: name, then the set list. -/
def validateExerciseSpec (ex : ExerciseSpec) : Option String :=
  if ex.name = "" then some "Exercise name is required"
  else if ex.sets.isEmpty then some "At least one set is required"
  else firstErr validateSetSpec ex.sets

/-- `createWorkoutSchema` of the create server action (`new/page.tsx`
lines 347-365): workout name min 1 / max 100, then the exercise list. -/
def validateCreate (d : CreateWorkoutData) : Option String :=
  if d.name = "" then some "Workout name is required"
  else if d.name.length > 100 then some "String must contain at most 100 character(s)"
  else if d.exercises.isEmpty then some "At least one exercise is required"
  else firstErr validateExerciseSpec d.exercises

/-- `updateWorkoutSchema` of the update server action (part_003): identical
field checks; its `id: z.string().uuid()` format check is below this model's
opaque-id abstraction and does not arise here. -/
def validateUpdate (d : UpdateWorkoutData) : Option String :=
  if d.name = "" then some "Workout name is required"
  else if d.name.length > 100 then some "String must contain at most 100 character(s)"
  else if d.exercises.isEmpty then some "At least one exercise is required"
  else firstErr validateExerciseSpec d.exercises

/-- The result mapping of the create server action: success carries the new
workout id, repository errors are caught and mapped to the generic message. -/
def actionWrap (r : DB × Except DbErr WorkoutRow) : DB × Except String Nat :=
  match r with
  | (db1, .ok w) => (db1, .ok w.id)
  | (db1, .error _) => (db1, .error "Failed to create workout. Please try again.")

/-- The `createWorkout` server action: zod parse first (returning
`error.issues[0].message` on failure, before any store call), then the
repository call, other errors mapped to the generic message. -/
def createWorkoutAction (auth : Option String) (failOn : Nat → Bool)
    (d : CreateWorkoutData) (db : DB) : DB × Except String Nat :=
  match validateCreate d with
  | some msg => (db, .error msg)
  | none => actionWrap (createWorkout auth failOn d db)

/-- `getOrdinalSuffix` (`src/lib/date-utils.ts`). -/
def getOrdinalSuffix (day : Nat) : String :=
  if day > 3 ∧ day < 21 then "th"
  else
    match day % 10 with
    | 1 => "st"
    | 2 => "nd"
    | 3 => "rd"
    | _ => "th"

/-- Well-formed store: every id and foreign key is below the generator, and
catalog ids are pairwise distinct. -/
@[reducible] def DB.WF (db : DB) : Prop :=
  (∀ e ∈ db.exercises, e.id < db.nextId) ∧
  db.exercises.Pairwise (fun a b => a.id ≠ b.id) ∧
  (∀ s ∈ db.sets, s.workoutExerciseId < db.nextId) ∧
  (∀ we ∈ db.workoutExercises, we.id < db.nextId ∧ we.workoutId < db.nextId) ∧
  (∀ w ∈ db.workouts, w.id < db.nextId)

/-- The repository call succeeded (`result.success` side of the action). -/
def isOkResult : Except DbErr WorkoutRow → Bool
  | .ok _ => true
  | .error _ => false

/-- How the store rows of one input exercise look after `createWorkout`,
relative to the final store `dbF`: the join row's catalog reference carries
the input name, and its set rows (in table order) carry `setNumber` values
`1..k` and the input weight/reps pairs, the weights rounded to the
`decimal(10, 2)` column's scale. -/
def ExMatch (dbF : DB) (ex : ExerciseSpec) (we : WorkoutExerciseRow) : Prop :=
  (dbF.exercises.find? (fun x => x.id == we.exerciseId)).map (fun e => e.name) =
    some ex.name ∧
  (dbF.sets.filter (fun s => s.workoutExerciseId == we.id)).map (fun s => s.setNumber) =
    List.range' 1 ex.sets.length ∧
  (dbF.sets.filter (fun s => s.workoutExerciseId == we.id)).map
      (fun s => (⟨s.weight, s.reps⟩ : SetSpec)) = ex.sets.map quantizeSet

/-- A valid edit document in the sense of the action-layer schema: non-empty
exercise list, non-empty names, at least one set each, positive weight,
positive integer reps. -/
def validDoc (d : CreateWorkoutData) : Bool :=
  !d.exercises.isEmpty &&
  d.exercises.all (fun ex =>
    ex.name != "" && !ex.sets.isEmpty &&
    ex.sets.all (fun s =>
      s.weight.all (fun w => decide (0 < w)) &&
      s.reps.all (fun r => decide (0 < r) && r.den == 1)))

/-- Modelled from the claim's words (C8): a set rejected by the claim's list
of conditions — non-positive weight, or non-positive or non-integer reps. -/
def badSet (s : SetSpec) : Bool :=
  s.weight.any (fun w => decide (w ≤ 0)) ||
  s.reps.any (fun r => decide (r.den ≠ 1) || decide (r ≤ 0))

/-- Modelled from the claim's words (C8): inputs the claim says are rejected —
empty exercise list, an exercise with empty name or empty set list, or a bad
set.  (The claim omits the workout-name conditions the schema also checks.) -/
def claimedBadExercises (exs : List ExerciseSpec) : Bool :=
  exs.isEmpty || exs.any (fun ex => ex.name == "" || ex.sets.isEmpty || ex.sets.any badSet)

/-- A hydrated workout whose join rows are ordered ascending by `order` and
whose set lists are ordered ascending by `setNumber`. -/
def HydratedSorted (h : HydratedWorkout) : Prop :=
  h.workoutExercises.Pairwise (fun a b => a.row.order ≤ b.row.order) ∧
  ∀ we ∈ h.workoutExercises, we.sets.Pairwise (fun a b => a.setNumber ≤ b.setNumber)

/-- Both retrievals return ordered results on the store `db`: the day query's
workouts descending by `startedAt`, and every hydrated aggregate internally
sorted. -/
def RetrievalsSorted (db : DB) : Prop :=
  (∀ u date l, getUserWorkoutsForDate (some u) date db = .ok l →
    l.Pairwise (fun a b => b.row.startedAt ≤ a.row.startedAt) ∧ ∀ h ∈ l, HydratedSorted h) ∧
  (∀ u wid h, getUserWorkoutById (some u) wid db = .ok (some h) → HydratedSorted h)

/-- `createWorkout` turned `db` into `db2` by appending join rows whose
`order` values are the zero-based input positions and whose set rows carry
1-based `setNumber` values in input order. -/
def CreateAssignsPositions (db db2 : DB) (d : CreateWorkoutData) : Prop :=
  ∃ wes, db2.workoutExercises = db.workoutExercises ++ wes ∧
    wes.map (fun we => we.order) = List.range d.exercises.length ∧
    List.Forall₂ (ExMatch db2) d.exercises wes

/-- `createWorkout` added to `db` a join row at position `i` that owns no set
rows in the resulting store `db2`. -/
def CreatedEmptyExercise (db db2 : DB) (i : Nat) : Prop :=
  ∃ we, we ∈ db2.workoutExercises ∧ we ∉ db.workoutExercises ∧ we.order = i ∧
    db2.sets.filter (fun s => s.workoutExerciseId == we.id) = []

/-- Each exercise name appears in at most one catalog row. -/
@[reducible] def CatalogNamesUnique (db : DB) : Prop :=
  db.exercises.Pairwise (fun a b => a.name ≠ b.name)

/-- Exactly one catalog row is named `nm`, and it is referenced by two
distinct join rows belonging to the workouts `wid1` and `wid2`. -/
def SharedCatalogRow (db : DB) (nm : String) (wid1 wid2 : Nat) : Prop :=
  ∃ e we1 we2, db.exercises.filter (fun x => x.name == nm) = [e] ∧
    we1 ∈ db.workoutExercises ∧ we2 ∈ db.workoutExercises ∧ we1.id ≠ we2.id ∧
    we1.workoutId = wid1 ∧ we2.workoutId = wid2 ∧
    we1.exerciseId = e.id ∧ we2.exerciseId = e.id

/-- The empty store. -/
def emptyDB : DB := ⟨[], [], [], [], 0⟩

/-- Failure schedule failing exactly insert statement 3 — for the concrete
`legDay` input below, the statement that inserts the set rows (statement 0
inserts the workout, 1 the catalog row, 2 the join row). -/
def failOn3 : Nat → Bool := fun n => n == 3

/-- Concrete create input: one exercise with three sets. -/
def legDay : CreateWorkoutData :=
  ⟨"Leg Day", 28800000, [⟨"Squat", [⟨some 100, some 5⟩, ⟨some 100, some 5⟩, ⟨some 100, some 5⟩]⟩]⟩

/-- Store holding one workout of user A started at the last millisecond of
calendar day 0 (timestamp 86399999 = 23:59:59.999). -/
def lastMsDB : DB := ⟨[], [⟨0, "A", "Late Workout", 86399999, none⟩], [], [], 1⟩

/-- Store holding one workout of user A started at 00:00:05.000 of day 0. -/
def c1WitnessDB : DB := ⟨[], [⟨0, "A", "Early Workout", 5000, none⟩], [], [], 1⟩

/-- Concrete two-exercise input for the ordering witness. -/
def orderedInput : CreateWorkoutData :=
  ⟨"Push Day", 3600000,
    [⟨"Bench Press", [⟨some 10, some 5⟩, ⟨some 12, some 4⟩]⟩,
     ⟨"Dips", [⟨some 10, some 5⟩, ⟨some 12, some 4⟩]⟩]⟩

/-- Create input whose only exercise has an empty set list. -/
def emptySetsInput : CreateWorkoutData := ⟨"Solo", 0, [⟨"Plank", []⟩]⟩

/-- Create input with an empty workout name but a fully valid exercise list. -/
def emptyNameInput : CreateWorkoutData := ⟨"", 0, [⟨"Squat", [⟨none, none⟩]⟩]⟩

/-- Concrete valid update input for the C8 witness. -/
def updateInput : UpdateWorkoutData := ⟨7, "W", 0, none, [⟨"Row", [⟨some 40, some 8⟩]⟩]⟩

/-- Store whose workouts all belong to user A (ownership-isolation witness). -/
def cOwnDB : DB := ⟨[], [⟨0, "A", "W", 0, none⟩], [], [], 1⟩

/-- Store with no workouts but the same B-owned rows as `cOwnDB` (none). -/
def cOwnDB2 : DB := ⟨[], [], [], [], 1⟩

/-- Catalog-only store with one row named X (C6 witness, generic part). -/
def catXDB : DB := ⟨[⟨0, "X"⟩], [], [], [], 1⟩

/-- Concrete create input referencing the exercise named "Bench Press". -/
def benchInput : CreateWorkoutData := ⟨"W", 0, [⟨"Bench Press", [⟨some 60, some 5⟩]⟩]⟩

/-- The store after creating `orderedInput` as user A on the empty store. -/
def c4DbR : DB := (createWorkout (some "A") noFail orderedInput emptyDB).1

/-- The workout row created by `orderedInput` on the empty store. -/
def c4W : WorkoutRow := ⟨0, "A", "Push Day", 3600000, none⟩

/-- The hydrated aggregate read back for the round-trip witness. -/
def c4H : HydratedWorkout := hydrateWorkout c4DbR c4W

/-- The rational 10.555, not representable at the weight column's scale 2. -/
def tenPoint555 : ℚ := mkRat 2111 200

/-- A valid edit document whose only weight is 10.555. -/
def c4xDoc : CreateWorkoutData := ⟨"Bench", 0, [⟨"Press", [⟨some tenPoint555, some 5⟩]⟩]⟩

/-- The store after creating `c4xDoc` as user A on the empty store. -/
def c4xDb : DB := (createWorkout (some "A") noFail c4xDoc emptyDB).1

/-- The workout row created by `c4xDoc` on the empty store. -/
def c4xW : WorkoutRow := ⟨0, "A", "Bench", 0, none⟩

/-- The hydrated aggregate read back for the round-trip counterexample. -/
def c4xH : HydratedWorkout := hydrateWorkout c4xDb c4xW

/-- The store after creating `benchInput` as user A on the empty store. -/
def c6Db1 : DB := (createWorkout (some "A") noFail benchInput emptyDB).1

/-- The store after user B creates `benchInput` again on `c6Db1`. -/
def c6Db2 : DB := (createWorkout (some "B") noFail benchInput c6Db1).1

/-! ### Lemmas about the sorting model -/

theorem mem_insertAsc {key : α → Nat} {x a : α} :
    ∀ {l : List α}, a ∈ insertAsc key x l ↔ a = x ∨ a ∈ l
  | [] => by simp [insertAsc]
  | y :: ys => by
    simp only [insertAsc]
    split
    · simp
    · simp only [List.mem_cons, mem_insertAsc (l := ys)]
      tauto

theorem mem_sortAsc {key : α → Nat} {a : α} :
    ∀ {l : List α}, a ∈ sortAsc key l ↔ a ∈ l
  | [] => Iff.rfl
  | x :: xs => by
    simp only [sortAsc, mem_insertAsc, List.mem_cons, mem_sortAsc (l := xs)]

theorem pairwise_insertAsc {key : α → Nat} {x : α} {l : List α}
    (h : l.Pairwise (fun a b => key a ≤ key b)) :
    (insertAsc key x l).Pairwise (fun a b => key a ≤ key b) := by
  induction l with
  | nil => simp [insertAsc]
  | cons y ys ih =>
    rw [List.pairwise_cons] at h
    simp only [insertAsc]
    split
    · rename_i hle
      refine List.Pairwise.cons ?_ (List.Pairwise.cons h.1 h.2)
      intro b hb
      rcases List.mem_cons.mp hb with rfl | hb
      · exact hle
      · exact le_trans hle (h.1 b hb)
    · rename_i hgt
      refine List.Pairwise.cons ?_ (ih h.2)
      intro b hb
      rcases mem_insertAsc.mp hb with rfl | hb
      · exact le_of_not_le hgt
      · exact h.1 b hb

theorem sortAsc_pairwise (key : α → Nat) :
    ∀ (l : List α), (sortAsc key l).Pairwise (fun a b => key a ≤ key b)
  | [] => List.Pairwise.nil
  | x :: xs => pairwise_insertAsc (sortAsc_pairwise key xs)

theorem insertAsc_of_le {key : α → Nat} {x : α} {l : List α}
    (h : ∀ y ∈ l, key x ≤ key y) : insertAsc key x l = x :: l := by
  cases l with
  | nil => rfl
  | cons y ys => simp [insertAsc, h y (List.mem_cons_self y ys)]

theorem sortAsc_of_pairwise {key : α → Nat} :
    ∀ {l : List α}, l.Pairwise (fun a b => key a ≤ key b) → sortAsc key l = l
  | [], _ => rfl
  | x :: xs, h => by
    rw [List.pairwise_cons] at h
    rw [sortAsc, sortAsc_of_pairwise h.2, insertAsc_of_le h.1]

theorem mem_insertDesc {key : α → Nat} {x a : α} :
    ∀ {l : List α}, a ∈ insertDesc key x l ↔ a = x ∨ a ∈ l
  | [] => by simp [insertDesc]
  | y :: ys => by
    simp only [insertDesc]
    split
    · simp
    · simp only [List.mem_cons, mem_insertDesc (l := ys)]
      tauto

theorem mem_sortDesc {key : α → Nat} {a : α} :
    ∀ {l : List α}, a ∈ sortDesc key l ↔ a ∈ l
  | [] => Iff.rfl
  | x :: xs => by
    simp only [sortDesc, mem_insertDesc, List.mem_cons, mem_sortDesc (l := xs)]

theorem pairwise_insertDesc {key : α → Nat} {x : α} {l : List α}
    (h : l.Pairwise (fun a b => key b ≤ key a)) :
    (insertDesc key x l).Pairwise (fun a b => key b ≤ key a) := by
  induction l with
  | nil => simp [insertDesc]
  | cons y ys ih =>
    rw [List.pairwise_cons] at h
    simp only [insertDesc]
    split
    · rename_i hle
      refine List.Pairwise.cons ?_ (List.Pairwise.cons h.1 h.2)
      intro b hb
      rcases List.mem_cons.mp hb with rfl | hb
      · exact hle
      · exact le_trans (h.1 b hb) hle
    · rename_i hgt
      refine List.Pairwise.cons ?_ (ih h.2)
      intro b hb
      rcases mem_insertDesc.mp hb with rfl | hb
      · exact le_of_not_le hgt
      · exact h.1 b hb

theorem sortDesc_pairwise (key : α → Nat) :
    ∀ (l : List α), (sortDesc key l).Pairwise (fun a b => key b ≤ key a)
  | [] => List.Pairwise.nil
  | x :: xs => pairwise_insertDesc (sortDesc_pairwise key xs)

/-! ### Generic list helpers -/

/-- In a catalog with pairwise-distinct ids, `findFirst` by the id of a member
returns exactly that member. -/
theorem catalog_find_id :
    ∀ {l : List ExerciseRow} {e : ExerciseRow},
      l.Pairwise (fun a b => a.id ≠ b.id) → e ∈ l →
      l.find? (fun x => x.id == e.id) = some e
  | [], _, _, he => absurd he (List.not_mem_nil _)
  | x :: xs, e, hnd, he => by
    rw [List.pairwise_cons] at hnd
    rcases List.mem_cons.mp he with rfl | he
    · simp [List.find?_cons_of_pos]
    · rw [List.find?_cons_of_neg, catalog_find_id hnd.2 he]
      simp only [beq_iff_eq]
      exact hnd.1 e he

/-- In a catalog with pairwise-distinct names, two members sharing a name
coincide. -/
theorem catalog_unique_name :
    ∀ {l : List ExerciseRow} {e1 e2 : ExerciseRow},
      l.Pairwise (fun a b => a.name ≠ b.name) → e1 ∈ l → e2 ∈ l →
      e1.name = e2.name → e1 = e2
  | [], _, _, _, h1, _, _ => absurd h1 (List.not_mem_nil _)
  | x :: xs, e1, e2, hnd, h1, h2, hnm => by
    rw [List.pairwise_cons] at hnd
    rcases List.mem_cons.mp h1 with he1 | he1
    · rcases List.mem_cons.mp h2 with he2 | he2
      · rw [he1, he2]
      · rw [he1] at hnm ⊢
        exact absurd hnm (hnd.1 e2 he2)
    · rcases List.mem_cons.mp h2 with he2 | he2
      · rw [he2] at hnm ⊢
        exact absurd hnm.symm (hnd.1 e1 he1)
      · exact catalog_unique_name hnd.2 he1 he2 hnm

/-- In a catalog with pairwise-distinct names, filtering by the name of a
member returns exactly that member. -/
theorem catalog_filter_name :
    ∀ {l : List ExerciseRow} {e : ExerciseRow},
      l.Pairwise (fun a b => a.name ≠ b.name) → e ∈ l →
      l.filter (fun x => x.name == e.name) = [e]
  | [], _, _, he => absurd he (List.not_mem_nil _)
  | x :: xs, e, hnd, he => by
    rw [List.pairwise_cons] at hnd
    rcases List.mem_cons.mp he with rfl | he
    · rw [List.filter_cons_of_pos (by simp), List.filter_eq_nil_iff.mpr]
      intro a ha
      simp only [beq_iff_eq]
      exact fun h => hnd.1 a ha h.symm
    · rw [List.filter_cons_of_neg, catalog_filter_name hnd.2 he]
      simp only [beq_iff_eq]
      exact hnd.1 e he

/-- `findFirst` with a conjunctive user check equals `findFirst` over the
user-filtered table. -/
theorem find?_owner (q : WorkoutRow → Bool) (u : String) :
    ∀ (l : List WorkoutRow),
      l.find? (fun w => q w && w.userId == u) =
        (l.filter (fun w => w.userId == u)).find? q
  | [] => rfl
  | w :: ws => by
    rw [List.filter_cons]
    by_cases hu : w.userId == u
    · rw [if_pos hu]
      by_cases hq : q w
      · rw [List.find?_cons_of_pos _ (by simp [hq, hu]), List.find?_cons_of_pos _ hq]
      · rw [List.find?_cons_of_neg _ (by simp [hq]), List.find?_cons_of_neg _ hq,
          find?_owner q u ws]
    · rw [if_neg hu, List.find?_cons_of_neg _ (by simp [hu]), find?_owner q u ws]

/-- Map a `Forall₂` pointwise relation into a `map` equation. -/
theorem map_eq_of_forall₂ {R : α → β → Prop} {f : β → γ} {g : α → γ} :
    ∀ {l1 : List α} {l2 : List β}, List.Forall₂ R l1 l2 →
      (∀ a b, R a b → f b = g a) → l2.map f = l1.map g
  | _, _, List.Forall₂.nil, _ => rfl
  | _, _, List.Forall₂.cons hab h, hf => by
    rw [List.map_cons, List.map_cons, map_eq_of_forall₂ h hf, hf _ _ hab]

/-- A map by a function fixing every member is the identity. -/
theorem map_fixed {f : α → α} :
    ∀ {l : List α}, (∀ x ∈ l, f x = x) → l.map f = l
  | [], _ => rfl
  | x :: xs, h => by
    rw [List.map_cons, h x (List.mem_cons_self x xs),
      map_fixed (fun y hy => h y (List.mem_cons_of_mem x hy))]

/-- Pick the partner of a member of the left list of a `Forall₂`. -/
theorem forall₂_mem_left {R : α → β → Prop} {a : α} :
    ∀ {l1 : List α} {l2 : List β}, List.Forall₂ R l1 l2 → a ∈ l1 →
      ∃ b ∈ l2, R a b
  | _, _, List.Forall₂.nil, ha => absurd ha (List.not_mem_nil _)
  | _, _, List.Forall₂.cons (a := x) (b := y) hab h, ha => by
    rcases List.mem_cons.mp ha with rfl | ha
    · exact ⟨y, List.mem_cons_self _ _, hab⟩
    · obtain ⟨b, hb, hr⟩ := forall₂_mem_left h ha
      exact ⟨b, List.mem_cons_of_mem _ hb, hr⟩

/-! ### Lemmas about `mkSetRows` -/

theorem mkSetRows_wexid {weId : Nat} :
    ∀ {b n : Nat} {ss : List SetSpec} {s : SetRow},
      s ∈ mkSetRows weId b n ss → s.workoutExerciseId = weId
  | _, _, [], _, hs => absurd hs (List.not_mem_nil _)
  | b, n, sp :: rest, s, hs => by
    rcases List.mem_cons.mp hs with rfl | hs
    · rfl
    · exact mkSetRows_wexid hs

theorem mkSetRows_map_num {weId : Nat} :
    ∀ (ss : List SetSpec) (b n : Nat),
      (mkSetRows weId b n ss).map (fun s => s.setNumber) = List.range' n ss.length
  | [], _, _ => rfl
  | sp :: rest, b, n => by
    rw [List.length_cons, List.range'_succ, mkSetRows, List.map_cons,
      mkSetRows_map_num rest (b + 1) (n + 1)]

theorem mkSetRows_map_spec {weId : Nat} :
    ∀ (ss : List SetSpec) (b n : Nat),
      (mkSetRows weId b n ss).map (fun s => (⟨s.weight, s.reps⟩ : SetSpec)) =
        ss.map quantizeSet
  | [], _, _ => rfl
  | sp :: rest, b, n => by
    rw [mkSetRows, List.map_cons, List.map_cons, mkSetRows_map_spec rest (b + 1) (n + 1)]
    rfl

/-! ### Case analysis for the catalog step -/

theorem lookupOrCreate_cases (f : Nat → Bool) (nm : String) (op : Nat) (db : DB) :
    (∃ e, db.exercises.find? (fun x => x.name == nm) = some e ∧
      lookupOrCreateExercise f nm op db = (db, op, some e.id)) ∨
    (db.exercises.find? (fun x => x.name == nm) = none ∧
      ((f op = true ∧ lookupOrCreateExercise f nm op db = (db, op + 1, none)) ∨
       (f op = false ∧ lookupOrCreateExercise f nm op db =
         (({ db with
             exercises := db.exercises ++ [⟨db.nextId, nm⟩]
             nextId := db.nextId + 1 } : DB), op + 1, some db.nextId)))) := by
  unfold lookupOrCreateExercise
  cases hf : db.exercises.find? (fun x => x.name == nm) with
  | some e => exact Or.inl ⟨e, rfl, rfl⟩
  | none =>
    refine Or.inr ⟨rfl, ?_⟩
    by_cases hop : f op
    · exact Or.inl ⟨hop, by simp [hop]⟩
    · exact Or.inr ⟨Bool.eq_false_iff.mpr hop, by simp [hop]⟩

/-- Catalog effect of the per-exercise loop, for any failure schedule: the
catalog is only appended to, the appended rows have pairwise-distinct names,
and none of them duplicates a name already present. -/
theorem createLoop_catalog (f : Nat → Bool) (wid : Nat) :
    ∀ (exs : List ExerciseSpec) (db : DB) (idx op : Nat),
      ∃ cat, (createLoop f wid idx op exs db).1.exercises = db.exercises ++ cat ∧
        cat.Pairwise (fun a b => a.name ≠ b.name) ∧
        (∀ c ∈ cat, ∀ e ∈ db.exercises, e.name ≠ c.name) := by
  intro exs
  induction exs with
  | nil => exact fun db idx op => ⟨[], by simp [createLoop], List.Pairwise.nil, by simp⟩
  | cons ex rest ih =>
    intro db idx op
    rcases lookupOrCreate_cases f ex.name op db with ⟨e, hf, hlk⟩ | ⟨hf, hrest⟩
    · -- catalog hit: nothing inserted at this step
      by_cases hop : f op
      · exact ⟨[], by simp [createLoop, hlk, hop], List.Pairwise.nil, by simp⟩
      · by_cases hse : ex.sets.isEmpty
        · have hred : createLoop f wid idx op (ex :: rest) db =
              createLoop f wid (idx + 1) (op + 1) rest
                ({ db with
                    workoutExercises := db.workoutExercises ++ [⟨db.nextId, wid, e.id, idx⟩]
                    nextId := db.nextId + 1 } : DB) := by
            simp [createLoop, hlk, hop, hse]
          rw [hred]
          exact ih _ _ _
        · by_cases hop1 : f (op + 1)
          · exact ⟨[], by simp [createLoop, hlk, hop, hse, hop1], List.Pairwise.nil, by simp⟩
          · have hred : createLoop f wid idx op (ex :: rest) db =
                createLoop f wid (idx + 1) (op + 2) rest
                  ({ db with
                      workoutExercises := db.workoutExercises ++ [⟨db.nextId, wid, e.id, idx⟩]
                      sets := db.sets ++ mkSetRows db.nextId (db.nextId + 1) 1 ex.sets
                      nextId := db.nextId + 1 + ex.sets.length } : DB) := by
              simp [createLoop, hlk, hop, hse, hop1]
            rw [hred]
            exact ih _ _ _
    · -- catalog miss: a new row may be inserted
      have hdisj : ∀ x ∈ db.exercises, x.name ≠ ex.name := by
        intro x hx
        simpa using List.find?_eq_none.mp hf x hx
      rcases hrest with ⟨hop, hlk⟩ | ⟨hop, hlk⟩
      · exact ⟨[], by simp [createLoop, hlk], List.Pairwise.nil, by simp⟩
      · by_cases hop1 : f (op + 1)
        · refine ⟨[⟨db.nextId, ex.name⟩], by simp [createLoop, hlk, hop1], ?_, ?_⟩
          · exact List.pairwise_singleton _ _
          · intro c hc x hx
            rw [List.mem_singleton.mp hc]
            exact hdisj x hx
        · by_cases hse : ex.sets.isEmpty
          · have hred : createLoop f wid idx op (ex :: rest) db =
                createLoop f wid (idx + 1) (op + 2) rest
                  ({ db with
                      exercises := db.exercises ++ [⟨db.nextId, ex.name⟩]
                      workoutExercises :=
                        db.workoutExercises ++ [⟨db.nextId + 1, wid, db.nextId, idx⟩]
                      nextId := db.nextId + 2 } : DB) := by
              simp [createLoop, hlk, hop1, hse]
            rw [hred]
            obtain ⟨cat, hc1, hc2, hc3⟩ := ih _ (idx + 1) (op + 2)
            refine ⟨⟨db.nextId, ex.name⟩ :: cat, ?_, ?_, ?_⟩
            · rw [hc1]
              simp
            · refine List.Pairwise.cons ?_ hc2
              intro c hc
              exact hc3 c hc ⟨db.nextId, ex.name⟩ (by simp)
            · intro c hc x hx
              rcases List.mem_cons.mp hc with rfl | hc
              · exact hdisj x hx
              · exact hc3 c hc x (by simp [hx])
          · by_cases hop2 : f (op + 2)
            · refine ⟨[⟨db.nextId, ex.name⟩],
                by simp [createLoop, hlk, hop1, hse, hop2], ?_, ?_⟩
              · exact List.pairwise_singleton _ _
              · intro c hc x hx
                rw [List.mem_singleton.mp hc]
                exact hdisj x hx
            · have hred : createLoop f wid idx op (ex :: rest) db =
                  createLoop f wid (idx + 1) (op + 3) rest
                    ({ db with
                        exercises := db.exercises ++ [⟨db.nextId, ex.name⟩]
                        workoutExercises :=
                          db.workoutExercises ++ [⟨db.nextId + 1, wid, db.nextId, idx⟩]
                        sets := db.sets ++ mkSetRows (db.nextId + 1) (db.nextId + 2) 1 ex.sets
                        nextId := db.nextId + 2 + ex.sets.length } : DB) := by
                simp [createLoop, hlk, hop1, hse, hop2]
              rw [hred]
              obtain ⟨cat, hc1, hc2, hc3⟩ := ih _ (idx + 1) (op + 3)
              refine ⟨⟨db.nextId, ex.name⟩ :: cat, ?_, ?_, ?_⟩
              · rw [hc1]
                simp
              · refine List.Pairwise.cons ?_ hc2
                intro c hc
                exact hc3 c hc ⟨db.nextId, ex.name⟩ (by simp)
              · intro c hc x hx
                rcases List.mem_cons.mp hc with rfl | hc
                · exact hdisj x hx
                · exact hc3 c hc x (by simp [hx])

/-- Catalog step under `noFail`: it always succeeds, returns the id of a
catalog row bearing the requested name, touches no other table, and preserves
the catalog id invariants. -/
theorem lookupOrCreate_noFail_spec (nm : String) (op : Nat) (db : DB)
    (hcid : ∀ x ∈ db.exercises, x.id < db.nextId)
    (hcnd : db.exercises.Pairwise (fun a b => a.id ≠ b.id)) :
    ∃ db1 op1 e,
      lookupOrCreateExercise noFail nm op db = (db1, op1, some e.id) ∧
      db1.workouts = db.workouts ∧
      db1.workoutExercises = db.workoutExercises ∧
      db1.sets = db.sets ∧
      (∃ cat0, db1.exercises = db.exercises ++ cat0) ∧
      db.nextId ≤ db1.nextId ∧
      (∀ x ∈ db1.exercises, x.id < db1.nextId) ∧
      db1.exercises.Pairwise (fun a b => a.id ≠ b.id) ∧
      e ∈ db1.exercises ∧ e.name = nm ∧ e.id < db1.nextId := by
  rcases lookupOrCreate_cases noFail nm op db with ⟨e, hf, hlk⟩ | ⟨hf, hrest⟩
  · refine ⟨db, op, e, hlk, rfl, rfl, rfl, ⟨[], by simp⟩, le_refl _, hcid, hcnd,
      List.mem_of_find?_eq_some hf, ?_, hcid e (List.mem_of_find?_eq_some hf)⟩
    simpa using List.find?_some hf
  · rcases hrest with ⟨hop, _⟩ | ⟨_, hlk⟩
    · exact absurd hop (by simp [noFail])
    · refine ⟨_, op + 1, ⟨db.nextId, nm⟩, hlk, rfl, rfl, rfl,
        ⟨[⟨db.nextId, nm⟩], rfl⟩, Nat.le_succ _, ?_, ?_, ?_, rfl, Nat.lt_succ_self _⟩
      · intro x hx
        rcases List.mem_append.mp hx with hx | hx
        · exact Nat.lt_succ_of_lt (hcid x hx)
        · rw [List.mem_singleton.mp hx]
          exact Nat.lt_succ_self _
      · rw [List.pairwise_append]
        refine ⟨hcnd, List.pairwise_singleton _ _, ?_⟩
        intro a ha b hb
        rw [List.mem_singleton.mp hb]
        exact Nat.ne_of_lt (hcid a ha)
      · exact List.mem_append_right _ (List.mem_singleton_self _)

/-- Full characterization of the per-exercise loop under `noFail`: it
succeeds, appends to the catalog, join and set tables only, assigns
consecutive `order` values starting at `idx`, fresh strictly increasing join
ids, and stores each exercise's catalog name and per-set data faithfully
(`ExMatch` relative to the final store). -/
theorem createLoop_spec (wid : Nat) :
    ∀ (exs : List ExerciseSpec) (db : DB) (idx op : Nat),
      (∀ x ∈ db.exercises, x.id < db.nextId) →
      db.exercises.Pairwise (fun a b => a.id ≠ b.id) →
      (∀ s ∈ db.sets, s.workoutExerciseId < db.nextId) →
      ∃ db2 op2 cat wes news,
        createLoop noFail wid idx op exs db = (db2, op2, false) ∧
        db2.workouts = db.workouts ∧
        db2.exercises = db.exercises ++ cat ∧
        db2.workoutExercises = db.workoutExercises ++ wes ∧
        db2.sets = db.sets ++ news ∧
        db.nextId ≤ db2.nextId ∧
        (∀ x ∈ db2.exercises, x.id < db2.nextId) ∧
        db2.exercises.Pairwise (fun a b => a.id ≠ b.id) ∧
        (∀ s ∈ db2.sets, s.workoutExerciseId < db2.nextId) ∧
        wes.map (fun we => we.order) = List.range' idx exs.length ∧
        (∀ we ∈ wes, we.workoutId = wid ∧ db.nextId ≤ we.id ∧ we.id < db2.nextId) ∧
        wes.Pairwise (fun a b => a.id < b.id) ∧
        (∀ s ∈ news, db.nextId ≤ s.workoutExerciseId) ∧
        List.Forall₂ (ExMatch db2) exs wes := by
  intro exs
  induction exs with
  | nil =>
    intro db idx op hcid hcnd hsb
    exact ⟨db, op, [], [], [], rfl, rfl, by simp, by simp, by simp, le_refl _,
      hcid, hcnd, hsb, rfl, by simp, List.Pairwise.nil, by simp, List.Forall₂.nil⟩
  | cons ex rest ih =>
    intro db idx op hcid hcnd hsb
    obtain ⟨db1, op1, e, hlk, hw1, hwe1, hs1, ⟨cat0, hcat0⟩, hmono1, hcid1, hcnd1,
      hmem1, hname1, hid1⟩ := lookupOrCreate_noFail_spec ex.name op db hcid hcnd
    by_cases hse : ex.sets.isEmpty
    · -- no set-insert statement for this exercise
      have hexnil : ex.sets = [] := List.isEmpty_iff.mp hse
      have hred : createLoop noFail wid idx op (ex :: rest) db =
          createLoop noFail wid (idx + 1) (op1 + 1) rest
            ({ db1 with
                workoutExercises := db1.workoutExercises ++ [⟨db1.nextId, wid, e.id, idx⟩]
                nextId := db1.nextId + 1 } : DB) := by
        simp [createLoop, hlk, noFail, hse]
      obtain ⟨db2, op2, cat, wes, news, heq, hwork, hcat, hwes, hsets, hmono, hcid2,
        hcnd2, hsb2, hord, hbnd, hpw, hnews, hf2⟩ :=
        ih ({ db1 with
                workoutExercises := db1.workoutExercises ++ [⟨db1.nextId, wid, e.id, idx⟩]
                nextId := db1.nextId + 1 } : DB) (idx + 1) (op1 + 1)
          (fun x hx => Nat.lt_succ_of_lt (hcid1 x hx)) hcnd1
          (by
            intro s hs
            rw [show ({ db1 with
                workoutExercises := db1.workoutExercises ++ [⟨db1.nextId, wid, e.id, idx⟩]
                nextId := db1.nextId + 1 } : DB).sets = db.sets from hs1] at hs
            exact Nat.lt_succ_of_lt (Nat.lt_of_lt_of_le (hsb s hs) hmono1))
      refine ⟨db2, op2, cat0 ++ cat, ⟨db1.nextId, wid, e.id, idx⟩ :: wes, news,
        by rw [hred]; exact heq, ?_, ?_, ?_, ?_, ?_, hcid2, hcnd2, hsb2, ?_, ?_, ?_, ?_, ?_⟩
      · rw [hwork]
        exact hw1
      · rw [hcat, show ({ db1 with
            workoutExercises := db1.workoutExercises ++ [⟨db1.nextId, wid, e.id, idx⟩]
            nextId := db1.nextId + 1 } : DB).exercises = db1.exercises from rfl,
          hcat0, List.append_assoc]
      · rw [hwes]
        rw [show ({ db1 with
            workoutExercises := db1.workoutExercises ++ [⟨db1.nextId, wid, e.id, idx⟩]
            nextId := db1.nextId + 1 } : DB).workoutExercises =
          db1.workoutExercises ++ [⟨db1.nextId, wid, e.id, idx⟩] from rfl, hwe1,
          List.append_assoc]
        rfl
      · rw [hsets, hs1]
      · exact le_trans hmono1 (le_trans (Nat.le_succ _) hmono)
      · rw [List.length_cons, List.range'_succ, List.map_cons, hord]
      · intro we hwe
        rcases List.mem_cons.mp hwe with rfl | hwe
        · exact ⟨rfl, hmono1, Nat.lt_of_lt_of_le (Nat.lt_succ_self _) hmono⟩
        · obtain ⟨ha, hb, hc⟩ := hbnd we hwe
          exact ⟨ha, le_trans hmono1 (le_trans (Nat.le_succ _) hb), hc⟩
      · refine List.Pairwise.cons ?_ hpw
        intro b hb
        exact Nat.lt_of_lt_of_le (Nat.lt_succ_self _) (hbnd b hb).2.1
      · intro s hs
        exact le_trans hmono1 (le_trans (Nat.le_succ _) (hnews s hs))
      · refine List.Forall₂.cons ⟨?_, ?_, ?_⟩ hf2
        · have hfind : db2.exercises.find?
              (fun x => x.id == (⟨db1.nextId, wid, e.id, idx⟩ : WorkoutExerciseRow).exerciseId) =
              some e := by
            refine catalog_find_id hcnd2 ?_
            rw [hcat]
            exact List.mem_append_left _ hmem1
          rw [hfind]
          simp [hname1]
        · have hflt : db2.sets.filter
              (fun s => s.workoutExerciseId ==
                (⟨db1.nextId, wid, e.id, idx⟩ : WorkoutExerciseRow).id) = [] := by
            rw [hsets, hs1, List.filter_append]
            rw [List.filter_eq_nil_iff.mpr, List.filter_eq_nil_iff.mpr, List.append_nil]
            · intro s hs
              simp only [beq_iff_eq]
              exact Nat.ne_of_gt (hnews s hs)
            · intro s hs
              simp only [beq_iff_eq]
              exact Nat.ne_of_lt (Nat.lt_of_lt_of_le (hsb s hs) hmono1)
          rw [hflt, hexnil]
          rfl
        · have hflt : db2.sets.filter
              (fun s => s.workoutExerciseId ==
                (⟨db1.nextId, wid, e.id, idx⟩ : WorkoutExerciseRow).id) = [] := by
            rw [hsets, hs1, List.filter_append]
            rw [List.filter_eq_nil_iff.mpr, List.filter_eq_nil_iff.mpr, List.append_nil]
            · intro s hs
              simp only [beq_iff_eq]
              exact Nat.ne_of_gt (hnews s hs)
            · intro s hs
              simp only [beq_iff_eq]
              exact Nat.ne_of_lt (Nat.lt_of_lt_of_le (hsb s hs) hmono1)
          rw [hflt, hexnil]
          rfl
    · -- one set-insert statement for this exercise
      have hred : createLoop noFail wid idx op (ex :: rest) db =
          createLoop noFail wid (idx + 1) (op1 + 2) rest
            ({ db1 with
                workoutExercises := db1.workoutExercises ++ [⟨db1.nextId, wid, e.id, idx⟩]
                sets := db1.sets ++ mkSetRows db1.nextId (db1.nextId + 1) 1 ex.sets
                nextId := db1.nextId + 1 + ex.sets.length } : DB) := by
        simp [createLoop, hlk, noFail, hse]
      obtain ⟨db2, op2, cat, wes, news, heq, hwork, hcat, hwes, hsets, hmono, hcid2,
        hcnd2, hsb2, hord, hbnd, hpw, hnews, hf2⟩ :=
        ih ({ db1 with
                workoutExercises := db1.workoutExercises ++ [⟨db1.nextId, wid, e.id, idx⟩]
                sets := db1.sets ++ mkSetRows db1.nextId (db1.nextId + 1) 1 ex.sets
                nextId := db1.nextId + 1 + ex.sets.length } : DB) (idx + 1) (op1 + 2)
          (fun x hx => Nat.lt_of_lt_of_le (hcid1 x hx)
            (le_trans (Nat.le_succ _) (Nat.le_add_right _ _))) hcnd1
          (by
            intro s hs
            rcases List.mem_append.mp hs with hs | hs
            · rw [hs1] at hs
              exact Nat.lt_of_lt_of_le (Nat.lt_of_lt_of_le (hsb s hs) hmono1)
                (le_trans (Nat.le_succ _) (Nat.le_add_right _ _))
            · rw [mkSetRows_wexid hs]
              exact Nat.lt_of_lt_of_le (Nat.lt_succ_self _) (Nat.le_add_right _ _))
      refine ⟨db2, op2, cat0 ++ cat, ⟨db1.nextId, wid, e.id, idx⟩ :: wes,
        mkSetRows db1.nextId (db1.nextId + 1) 1 ex.sets ++ news,
        by rw [hred]; exact heq, ?_, ?_, ?_, ?_, ?_, hcid2, hcnd2, hsb2, ?_, ?_, ?_, ?_, ?_⟩
      · rw [hwork]
        exact hw1
      · rw [hcat, show ({ db1 with
            workoutExercises := db1.workoutExercises ++ [⟨db1.nextId, wid, e.id, idx⟩]
            sets := db1.sets ++ mkSetRows db1.nextId (db1.nextId + 1) 1 ex.sets
            nextId := db1.nextId + 1 + ex.sets.length } : DB).exercises = db1.exercises
          from rfl, hcat0, List.append_assoc]
      · rw [hwes]
        rw [show ({ db1 with
            workoutExercises := db1.workoutExercises ++ [⟨db1.nextId, wid, e.id, idx⟩]
            sets := db1.sets ++ mkSetRows db1.nextId (db1.nextId + 1) 1 ex.sets
            nextId := db1.nextId + 1 + ex.sets.length } : DB).workoutExercises =
          db1.workoutExercises ++ [⟨db1.nextId, wid, e.id, idx⟩] from rfl, hwe1,
          List.append_assoc]
        rfl
      · rw [hsets]
        rw [show ({ db1 with
            workoutExercises := db1.workoutExercises ++ [⟨db1.nextId, wid, e.id, idx⟩]
            sets := db1.sets ++ mkSetRows db1.nextId (db1.nextId + 1) 1 ex.sets
            nextId := db1.nextId + 1 + ex.sets.length } : DB).sets =
          db1.sets ++ mkSetRows db1.nextId (db1.nextId + 1) 1 ex.sets from rfl, hs1,
          List.append_assoc]
      · exact le_trans hmono1
          (le_trans (le_trans (Nat.le_succ _) (Nat.le_add_right _ _)) hmono)
      · rw [List.length_cons, List.range'_succ, List.map_cons, hord]
      · intro we hwe
        rcases List.mem_cons.mp hwe with rfl | hwe
        · refine ⟨rfl, hmono1, Nat.lt_of_lt_of_le ?_ hmono⟩
          exact Nat.lt_of_lt_of_le (Nat.lt_succ_self _) (Nat.le_add_right _ _)
        · obtain ⟨ha, hb, hc⟩ := hbnd we hwe
          exact ⟨ha, le_trans hmono1
            (le_trans (le_trans (Nat.le_succ _) (Nat.le_add_right _ _)) hb), hc⟩
      · refine List.Pairwise.cons ?_ hpw
        intro b hb
        exact Nat.lt_of_lt_of_le
          (Nat.lt_of_lt_of_le (Nat.lt_succ_self _) (Nat.le_add_right _ _)) (hbnd b hb).2.1
      · intro s hs
        rcases List.mem_append.mp hs with hs | hs
        · rw [mkSetRows_wexid hs]
          exact hmono1
        · exact le_trans hmono1
            (le_trans (le_trans (Nat.le_succ _) (Nat.le_add_right _ _)) (hnews s hs))
      · refine List.Forall₂.cons ⟨?_, ?_, ?_⟩ hf2
        · have hfind : db2.exercises.find?
              (fun x => x.id == (⟨db1.nextId, wid, e.id, idx⟩ : WorkoutExerciseRow).exerciseId) =
              some e := by
            refine catalog_find_id hcnd2 ?_
            rw [hcat]
            exact List.mem_append_left _ hmem1
          rw [hfind]
          simp [hname1]
        · have hflt : db2.sets.filter
              (fun s => s.workoutExerciseId ==
                (⟨db1.nextId, wid, e.id, idx⟩ : WorkoutExerciseRow).id) =
              mkSetRows db1.nextId (db1.nextId + 1) 1 ex.sets := by
            rw [hsets]
            rw [show ({ db1 with
                workoutExercises := db1.workoutExercises ++ [⟨db1.nextId, wid, e.id, idx⟩]
                sets := db1.sets ++ mkSetRows db1.nextId (db1.nextId + 1) 1 ex.sets
                nextId := db1.nextId + 1 + ex.sets.length } : DB).sets =
              db1.sets ++ mkSetRows db1.nextId (db1.nextId + 1) 1 ex.sets from rfl, hs1,
              List.filter_append, List.filter_append]
            rw [List.filter_eq_nil_iff.mpr, List.filter_eq_self.mpr,
              List.filter_eq_nil_iff.mpr, List.append_nil, List.nil_append]
            · intro s hs
              simp only [beq_iff_eq]
              exact Nat.ne_of_gt (Nat.lt_of_lt_of_le
                (Nat.lt_of_lt_of_le (Nat.lt_succ_self _) (Nat.le_add_right _ _)) (hnews s hs))
            · intro s hs
              simp only [beq_iff_eq]
              exact mkSetRows_wexid hs
            · intro s hs
              simp only [beq_iff_eq]
              exact Nat.ne_of_lt (Nat.lt_of_lt_of_le (hsb s hs) hmono1)
          rw [hflt, mkSetRows_map_num]
        · have hflt : db2.sets.filter
              (fun s => s.workoutExerciseId ==
                (⟨db1.nextId, wid, e.id, idx⟩ : WorkoutExerciseRow).id) =
              mkSetRows db1.nextId (db1.nextId + 1) 1 ex.sets := by
            rw [hsets]
            rw [show ({ db1 with
                workoutExercises := db1.workoutExercises ++ [⟨db1.nextId, wid, e.id, idx⟩]
                sets := db1.sets ++ mkSetRows db1.nextId (db1.nextId + 1) 1 ex.sets
                nextId := db1.nextId + 1 + ex.sets.length } : DB).sets =
              db1.sets ++ mkSetRows db1.nextId (db1.nextId + 1) 1 ex.sets from rfl, hs1,
              List.filter_append, List.filter_append]
            rw [List.filter_eq_nil_iff.mpr, List.filter_eq_self.mpr,
              List.filter_eq_nil_iff.mpr, List.append_nil, List.nil_append]
            · intro s hs
              simp only [beq_iff_eq]
              exact Nat.ne_of_gt (Nat.lt_of_lt_of_le
                (Nat.lt_of_lt_of_le (Nat.lt_succ_self _) (Nat.le_add_right _ _)) (hnews s hs))
            · intro s hs
              simp only [beq_iff_eq]
              exact mkSetRows_wexid hs
            · intro s hs
              simp only [beq_iff_eq]
              exact Nat.ne_of_lt (Nat.lt_of_lt_of_le (hsb s hs) hmono1)
          rw [hflt, mkSetRows_map_spec]

/-- The two flattening components of one hydrated join row, recovered from
`ExMatch`: the joined catalog name is the input name, and the sets flatten
back to the input set specs with scale-2-rounded weights (they are already
sorted by `setNumber`). -/
theorem exmatch_flatten {db2 : DB} {ex : ExerciseSpec} {we : WorkoutExerciseRow}
    (h : ExMatch db2 ex we) :
    (((hydrateWE db2 we).exercise.map (fun e => e.name)).getD "") = ex.name ∧
    (hydrateWE db2 we).sets.map (fun s => (⟨s.weight, s.reps⟩ : SetSpec)) =
      ex.sets.map quantizeSet := by
  obtain ⟨hn, hnum, hspec⟩ := h
  constructor
  · rw [show (hydrateWE db2 we).exercise =
      db2.exercises.find? (fun e => e.id == we.exerciseId) from rfl, hn]
    rfl
  · have hsorted : (db2.sets.filter (fun s => s.workoutExerciseId == we.id)).Pairwise
        (fun a b => a.setNumber ≤ b.setNumber) := by
      have h1 : ((db2.sets.filter (fun s => s.workoutExerciseId == we.id)).map
          (fun s => s.setNumber)).Pairwise (fun a b => a ≤ b) := by
        rw [hnum]
        exact (List.pairwise_lt_range' 1 ex.sets.length).imp le_of_lt
      rw [List.pairwise_map] at h1
      exact h1
    rw [show (hydrateWE db2 we).sets = sortAsc (fun s => s.setNumber)
        (db2.sets.filter (fun s => s.workoutExerciseId == we.id)) from rfl,
      sortAsc_of_pairwise hsorted, hspec]

/-- Every hydrated workout is internally sorted: join rows ascending by
`order`, set lists ascending by `setNumber`. -/
theorem hydrateWorkout_sorted (db : DB) (w : WorkoutRow) :
    HydratedSorted (hydrateWorkout db w) := by
  constructor
  · rw [show (hydrateWorkout db w).workoutExercises =
      (sortAsc (fun we => we.order)
        (db.workoutExercises.filter (fun we => we.workoutId == w.id))).map
        (hydrateWE db) from rfl, List.pairwise_map]
    exact sortAsc_pairwise _ _
  · intro we hwe
    rw [show (hydrateWorkout db w).workoutExercises =
      (sortAsc (fun we => we.order)
        (db.workoutExercises.filter (fun we => we.workoutId == w.id))).map
        (hydrateWE db) from rfl] at hwe
    obtain ⟨x, _, rfl⟩ := List.mem_map.mp hwe
    exact sortAsc_pairwise _ _

/-- Arithmetic of the day window: a timestamp lies in the half-open window of
`date` exactly when it falls on the same calendar day and is not the last
millisecond of that day. -/
theorem window_iff (date t : Nat) :
    (startOfDayMs date ≤ t ∧ t < endOfDayMs date) ↔
      (startOfDayMs t = startOfDayMs date ∧ t % dayMs ≠ dayMs - 1) := by
  simp only [startOfDayMs, endOfDayMs, dayMs]
  omega

/-- Full characterization of `createWorkout` under `noFail` on a well-formed
store: it succeeds, appends exactly one workout row owned by the caller with
the given name and start time, appends join rows in input order, keeps the
store well-formed, and reading the workout back by id returns the hydrated
aggregate whose edit-page flattening reproduces the input document with each
weight rounded to the `decimal(10, 2)` column's scale. -/
theorem createWorkout_spec (u : String) (d : CreateWorkoutData) (db : DB) (hwf : db.WF) :
    ∃ db2 w wes,
      createWorkout (some u) noFail d db = (db2, .ok w) ∧
      w = ⟨db.nextId, u, d.name, d.startedAt, none⟩ ∧
      db2.workouts = db.workouts ++ [w] ∧
      (∃ cat, db2.exercises = db.exercises ++ cat) ∧
      db2.workoutExercises = db.workoutExercises ++ wes ∧
      db.nextId < db2.nextId ∧
      wes.map (fun we => we.order) = List.range d.exercises.length ∧
      (∀ we ∈ wes, we.workoutId = w.id ∧ db.nextId < we.id) ∧
      List.Forall₂ (ExMatch db2) d.exercises wes ∧
      db2.WF ∧
      getUserWorkoutById (some u) w.id db2 = .ok (some (hydrateWorkout db2 w)) ∧
      hydrateWorkout db2 w = ⟨w, wes.map (hydrateWE db2)⟩ ∧
      flattenHydrated (hydrateWorkout db2 w) =
        ⟨w.id, d.name, d.startedAt, none, d.exercises.map quantizeExercise⟩ := by
  obtain ⟨hcid, hcnd, hsb, hweb, hwb⟩ := hwf
  obtain ⟨db2, op2, cat, wes, news, heq, hwork, hcat, hwes, hsets, hmono, hcid2, hcnd2,
    hsb2, hord, hbnd, hpw, hnews, hf2⟩ :=
    createLoop_spec db.nextId d.exercises
      ({ db with
          workouts := db.workouts ++ [⟨db.nextId, u, d.name, d.startedAt, none⟩]
          nextId := db.nextId + 1 } : DB) 0 1
      (fun x hx => Nat.lt_succ_of_lt (hcid x hx)) hcnd
      (fun s hs => Nat.lt_succ_of_lt (hsb s hs))
  have hcw : createWorkout (some u) noFail d db =
      (db2, .ok ⟨db.nextId, u, d.name, d.startedAt, none⟩) := by
    simp only [createWorkout, noFail, Bool.false_eq_true, if_false]
    rw [heq]
  have hwork2 : db2.workouts = db.workouts ++ [⟨db.nextId, u, d.name, d.startedAt, none⟩] :=
    hwork
  have hwes2 : db2.workoutExercises = db.workoutExercises ++ wes := hwes
  have hmono2 : db.nextId < db2.nextId := Nat.lt_of_lt_of_le (Nat.lt_succ_self _) hmono
  have hbnd2 : ∀ we ∈ wes, we.workoutId = db.nextId ∧ db.nextId < we.id := by
    intro we hwe
    obtain ⟨ha, hb, _⟩ := hbnd we hwe
    exact ⟨ha, Nat.lt_of_lt_of_le (Nat.lt_succ_self _) hb⟩
  have hwf2 : db2.WF := by
    refine ⟨hcid2, hcnd2, hsb2, ?_, ?_⟩
    · intro we hwe
      rw [hwes2] at hwe
      rcases List.mem_append.mp hwe with hwe | hwe
      · obtain ⟨h1, h2⟩ := hweb we hwe
        exact ⟨Nat.lt_trans h1 hmono2, Nat.lt_trans h2 hmono2⟩
      · obtain ⟨_, _, h3⟩ := hbnd we hwe
        exact ⟨h3, (hbnd2 we hwe).1 ▸ hmono2⟩
    · intro w hw
      rw [hwork2] at hw
      rcases List.mem_append.mp hw with hw | hw
      · exact Nat.lt_trans (hwb w hw) hmono2
      · rw [List.mem_singleton.mp hw]
        exact hmono2
  have hfind : db2.workouts.find?
      (fun w => w.id == db.nextId && w.userId == u) =
      some ⟨db.nextId, u, d.name, d.startedAt, none⟩ := by
    rw [hwork2, List.find?_append]
    have h1 : db.workouts.find? (fun w => w.id == db.nextId && w.userId == u) = none := by
      rw [List.find?_eq_none]
      intro w hw
      simp only [Bool.and_eq_true, beq_iff_eq, not_and]
      intro hid
      exact absurd hid (Nat.ne_of_lt (hwb w hw))
    rw [h1]
    simp
  have hfltwes : db2.workoutExercises.filter
      (fun we => we.workoutId == db.nextId) = wes := by
    rw [hwes2, List.filter_append]
    rw [List.filter_eq_nil_iff.mpr, List.filter_eq_self.mpr, List.nil_append]
    · intro we hwe
      simp only [beq_iff_eq]
      exact (hbnd2 we hwe).1
    · intro we hwe
      simp only [beq_iff_eq]
      exact Nat.ne_of_lt (hweb we hwe).2
  have hwespw : wes.Pairwise (fun a b => a.order ≤ b.order) := by
    have h1 : (wes.map (fun we => we.order)).Pairwise (fun a b => a ≤ b) := by
      rw [hord]
      exact (List.pairwise_lt_range' 0 d.exercises.length).imp le_of_lt
    rw [List.pairwise_map] at h1
    exact h1
  have hhyd : hydrateWorkout db2 ⟨db.nextId, u, d.name, d.startedAt, none⟩ =
      ⟨⟨db.nextId, u, d.name, d.startedAt, none⟩, wes.map (hydrateWE db2)⟩ := by
    rw [hydrateWorkout]
    rw [show (⟨db.nextId, u, d.name, d.startedAt, none⟩ : WorkoutRow).id = db.nextId from rfl,
      hfltwes, sortAsc_of_pairwise hwespw]
  refine ⟨db2, ⟨db.nextId, u, d.name, d.startedAt, none⟩, wes, hcw, rfl, hwork2,
    ⟨cat, hcat⟩, hwes2, hmono2, ?_, hbnd2, hf2, hwf2, ?_, hhyd, ?_⟩
  · rw [hord, List.range_eq_range']
  · rw [getUserWorkoutById]
    rw [show (⟨db.nextId, u, d.name, d.startedAt, none⟩ : WorkoutRow).id = db.nextId from rfl,
      hfind]
    rfl
  · rw [hhyd, flattenHydrated]
    refine congrArg _ ?_
    rw [List.map_map]
    refine map_eq_of_forall₂ hf2 ?_
    intro ex we hm
    obtain ⟨h1, h2⟩ := exmatch_flatten hm
    cases ex with
    | mk exn exsets =>
      simp only [Function.comp, quantizeExercise]
      rw [ExerciseSpec.mk.injEq]
      exact ⟨h1, h2⟩

/-- Catalog effect of a full `createWorkout` call, for any auth state and any
failure schedule: append-only, appended names pairwise distinct and disjoint
from the names already present. -/
theorem createWorkout_catalog (a : Option String) (f : Nat → Bool)
    (d : CreateWorkoutData) (db : DB) :
    ∃ cat, (createWorkout a f d db).1.exercises = db.exercises ++ cat ∧
      cat.Pairwise (fun x y => x.name ≠ y.name) ∧
      (∀ c ∈ cat, ∀ e ∈ db.exercises, e.name ≠ c.name) := by
  cases a with
  | none => exact ⟨[], by simp [createWorkout], List.Pairwise.nil, by simp⟩
  | some u =>
    by_cases h0 : f 0
    · exact ⟨[], by simp [createWorkout, h0], List.Pairwise.nil, by simp⟩
    · obtain ⟨cat, hc1, hc2, hc3⟩ := createLoop_catalog f db.nextId d.exercises
        ({ db with
            workouts := db.workouts ++ [⟨db.nextId, u, d.name, d.startedAt, none⟩]
            nextId := db.nextId + 1 } : DB) 0 1
      refine ⟨cat, ?_, hc2, hc3⟩
      rcases hcl : createLoop f db.nextId 0 1 d.exercises
        ({ db with
            workouts := db.workouts ++ [⟨db.nextId, u, d.name, d.startedAt, none⟩]
            nextId := db.nextId + 1 } : DB) with ⟨db2, op2, b⟩
      rw [hcl] at hc1
      cases b <;> simp [createWorkout, h0, hcl] <;> exact hc1

/-- `createWorkout` preserves name-uniqueness of the catalog. -/
theorem createWorkout_names_unique (a : Option String) (f : Nat → Bool)
    (d : CreateWorkoutData) (db : DB) (hinv : CatalogNamesUnique db) :
    CatalogNamesUnique (createWorkout a f d db).1 := by
  obtain ⟨cat, hc1, hc2, hc3⟩ := createWorkout_catalog a f d db
  rw [CatalogNamesUnique, hc1, List.pairwise_append]
  exact ⟨hinv, hc2, fun x hx c hc => hc3 c hc x hx⟩

/-- `createWorkout` never inserts a catalog row for a name already present:
the number of rows bearing a present name is unchanged. -/
theorem createWorkout_count (a : Option String) (f : Nat → Bool)
    (d : CreateWorkoutData) (db : DB) (nm : String)
    (hp : nm ∈ db.exercises.map (fun e => e.name)) :
    ((createWorkout a f d db).1.exercises.filter (fun e => e.name == nm)).length =
      (db.exercises.filter (fun e => e.name == nm)).length := by
  obtain ⟨cat, hc1, _, hc3⟩ := createWorkout_catalog a f d db
  obtain ⟨e, he, hen⟩ := List.mem_map.mp hp
  rw [hc1, List.filter_append]
  have hnil : cat.filter (fun x => x.name == nm) = [] := by
    rw [List.filter_eq_nil_iff]
    intro c hc
    simp only [beq_iff_eq]
    rw [← hen]
    exact fun h => hc3 c hc e he h.symm
  rw [hnil, List.append_nil]

/-- With an authenticated identity present, `createWorkout` never fails with
`Unauthorized`. -/
theorem createWorkout_some_not_unauth (u : String) (f : Nat → Bool)
    (d : CreateWorkoutData) (db : DB) :
    (createWorkout (some u) f d db).2 ≠ .error .unauthorized := by
  by_cases h0 : f 0
  · simp [createWorkout, h0]
  · rcases hcl : createLoop f db.nextId 0 1 d.exercises
      ({ db with
          workouts := db.workouts ++ [⟨db.nextId, u, d.name, d.startedAt, none⟩]
          nextId := db.nextId + 1 } : DB) with ⟨db2, op2, b⟩
    cases b <;> simp [createWorkout, h0, hcl]

/-! ### Lemmas about the action-layer validation -/

theorem firstErr_none_iff (f : α → Option String) :
    ∀ l : List α, firstErr f l = none ↔ ∀ x ∈ l, f x = none
  | [] => by simp [firstErr]
  | x :: xs => by
    cases hx : f x <;> simp [firstErr, hx, firstErr_none_iff f xs]

theorem validateSetSpec_none_iff (s : SetSpec) :
    validateSetSpec s = none ↔ badSet s = false := by
  rcases s with ⟨w, r⟩
  cases w <;> cases r <;>
    simp only [validateSetSpec, validateWeight, validateReps, badSet, Option.any_none,
      Option.any_some, Bool.false_or, Bool.or_eq_false_iff, decide_eq_false_iff_not,
      not_not, not_le] <;>
    split_ifs <;> simp_all

theorem validateExerciseSpec_none_iff (ex : ExerciseSpec) :
    validateExerciseSpec ex = none ↔
      (ex.name == "" || ex.sets.isEmpty || ex.sets.any badSet) = false := by
  rw [validateExerciseSpec]
  split_ifs with h1 h2
  · simp [h1]
  · simp [h2]
  · rw [firstErr_none_iff]
    simp only [validateSetSpec_none_iff, Bool.or_eq_false_iff]
    constructor
    · intro h
      refine ⟨⟨by simpa using h1, by simpa using h2⟩, ?_⟩
      rw [List.any_eq_false]
      intro s hs
      exact Bool.eq_false_iff.mp (h s hs)
    · intro h s hs
      have h2 := h.2
      rw [List.any_eq_false] at h2
      exact Bool.eq_false_iff.mpr (h2 s hs)

theorem validateCreate_none_iff (d : CreateWorkoutData) :
    validateCreate d = none ↔
      (d.name ≠ "" ∧ d.name.length ≤ 100 ∧ claimedBadExercises d.exercises = false) := by
  rw [validateCreate, claimedBadExercises]
  split_ifs with h1 h2 h3
  · simp [h1]
  · simp only [iff_def]
    exact ⟨fun h => absurd h (by simp), fun h => absurd h.2.1 (by omega)⟩
  · simp [h3, h1, Nat.le_of_not_lt h2]
  · rw [firstErr_none_iff]
    constructor
    · intro h
      have hany : (d.exercises.any
          (fun ex => ex.name == "" || ex.sets.isEmpty || ex.sets.any badSet)) = false := by
        rw [List.any_eq_false]
        intro ex hex
        exact Bool.eq_false_iff.mp ((validateExerciseSpec_none_iff ex).mp (h ex hex))
      refine ⟨h1, by omega, ?_⟩
      rw [Bool.or_eq_false_iff]
      exact ⟨by simpa using h3, hany⟩
    · intro h ex hex
      rw [validateExerciseSpec_none_iff]
      have hany := (Bool.or_eq_false_iff.mp h.2.2).2
      rw [List.any_eq_false] at hany
      exact Bool.eq_false_iff.mpr (hany ex hex)

theorem validateUpdate_none_iff (d : UpdateWorkoutData) :
    validateUpdate d = none ↔
      (d.name ≠ "" ∧ d.name.length ≤ 100 ∧ claimedBadExercises d.exercises = false) := by
  rw [validateUpdate, claimedBadExercises]
  split_ifs with h1 h2 h3
  · simp [h1]
  · simp only [iff_def]
    exact ⟨fun h => absurd h (by simp), fun h => absurd h.2.1 (by omega)⟩
  · simp [h3, h1, Nat.le_of_not_lt h2]
  · rw [firstErr_none_iff]
    constructor
    · intro h
      have hany : (d.exercises.any
          (fun ex => ex.name == "" || ex.sets.isEmpty || ex.sets.any badSet)) = false := by
        rw [List.any_eq_false]
        intro ex hex
        exact Bool.eq_false_iff.mp ((validateExerciseSpec_none_iff ex).mp (h ex hex))
      refine ⟨h1, by omega, ?_⟩
      rw [Bool.or_eq_false_iff]
      exact ⟨by simpa using h3, hany⟩
    · intro h ex hex
      rw [validateExerciseSpec_none_iff]
      have hany := (Bool.or_eq_false_iff.mp h.2.2).2
      rw [List.any_eq_false] at hany
      exact Bool.eq_false_iff.mpr (hany ex hex)

/-! ### Claim theorems -/

/-- C10: for every day-of-month 1 ≤ n ≤ 31, `getOrdinalSuffix` returns "th"
for 3 < n < 21, otherwise "st"/"nd"/"rd" when n mod 10 is 1/2/3, and "th" for
every other n. -/
theorem c10_ordinal_suffix (n : Nat) (h1 : 1 ≤ n) (h2 : n ≤ 31) :
    getOrdinalSuffix n =
      if 3 < n ∧ n < 21 then "th"
      else if n % 10 = 1 then "st"
      else if n % 10 = 2 then "nd"
      else if n % 10 = 3 then "rd"
      else "th" := by
  interval_cases n <;> decide

theorem c10_ordinal_suffix_witness :
    1 ≤ 23 ∧ 23 ≤ 31 ∧ getOrdinalSuffix 23 =
      (if 3 < 23 ∧ 23 < 21 then "th"
       else if 23 % 10 = 1 then "st"
       else if 23 % 10 = 2 then "nd"
       else if 23 % 10 = 3 then "rd"
       else "th") :=
  ⟨by decide, by decide, c10_ordinal_suffix 23 (by decide) (by decide)⟩

/-- C2 (the code violates the claim): with a store failure injected at the
set-insert statement of `legDay` (statement 3), `createWorkout` reports a
store failure yet the workout row and the join row written by the earlier
statements remain, and a subsequent read by id still sees the workout — the
multi-statement create is not atomic. -/
theorem c2_partial_commit_visible :
    (createWorkout (some "A") failOn3 legDay emptyDB).2 = .error .storeFailure ∧
    ((createWorkout (some "A") failOn3 legDay emptyDB).1).workouts.length = 1 ∧
    ((createWorkout (some "A") failOn3 legDay emptyDB).1).workoutExercises.length = 1 ∧
    ((createWorkout (some "A") failOn3 legDay emptyDB).1).sets.length = 0 ∧
    getUserWorkoutById (some "A") 0 ((createWorkout (some "A") failOn3 legDay emptyDB).1) ≠
      .ok none := by decide

/-- C1 (counterexample to the claim as stated): a workout of user A started
at 23:59:59.999 of calendar day 0 — the last millisecond of the day the
query is made for — is excluded from the day query's result, because the
code compares `startedAt < endOfDay` strictly. -/
theorem c1_counterexample :
    startOfDayMs 86399999 = startOfDayMs 0 ∧
    lastMsDB.workouts = [⟨0, "A", "Late Workout", 86399999, none⟩] ∧
    getUserWorkoutsForDate (some "A") 0 lastMsDB = .ok [] := by decide

/-- C1 (amended): the day window of `getUserWorkoutsForDate` contains exactly
the authenticated user's workouts whose `startedAt` falls on the same
calendar day as the query date, except a workout at the day's last
millisecond (23:59:59.999), which the strict upper bound excludes; workouts
of neighbouring days are excluded. -/
theorem c1_day_window (u : String) (date : Nat) (db : DB) (l : List HydratedWorkout)
    (w : WorkoutRow) (hq : getUserWorkoutsForDate (some u) date db = .ok l) :
    w ∈ l.map (fun h => h.row) ↔
      (w ∈ db.workouts ∧ w.userId = u ∧ startOfDayMs w.startedAt = startOfDayMs date ∧
        w.startedAt % dayMs ≠ dayMs - 1) := by
  simp only [getUserWorkoutsForDate, Except.ok.injEq] at hq
  rw [← hq]
  have hrows : ∀ L : List WorkoutRow,
      (L.map (hydrateWorkout db)).map (fun h => h.row) = L := by
    intro L
    induction L with
    | nil => rfl
    | cons a t ih =>
      rw [List.map_cons, List.map_cons, ih]
      rfl
  rw [hrows]
  rw [mem_sortDesc, List.mem_filter]
  have hwiff := window_iff date w.startedAt
  simp only [Bool.and_eq_true, beq_iff_eq, decide_eq_true_iff]
  constructor
  · rintro ⟨hmem, ⟨hu, hs⟩, he⟩
    exact ⟨hmem, hu, (hwiff.mp ⟨hs, he⟩).1, (hwiff.mp ⟨hs, he⟩).2⟩
  · rintro ⟨hmem, hu, hd, hm⟩
    exact ⟨hmem, ⟨hu, (hwiff.mpr ⟨hd, hm⟩).1⟩, (hwiff.mpr ⟨hd, hm⟩).2⟩

theorem c1_day_window_witness :
    (⟨0, "A", "Early Workout", 5000, none⟩ : WorkoutRow) ∈
        ([hydrateWorkout c1WitnessDB ⟨0, "A", "Early Workout", 5000, none⟩].map
          (fun h => h.row)) ↔
      ((⟨0, "A", "Early Workout", 5000, none⟩ : WorkoutRow) ∈ c1WitnessDB.workouts ∧
        (⟨0, "A", "Early Workout", 5000, none⟩ : WorkoutRow).userId = "A" ∧
        startOfDayMs (⟨0, "A", "Early Workout", 5000, none⟩ : WorkoutRow).startedAt =
          startOfDayMs 0 ∧
        (⟨0, "A", "Early Workout", 5000, none⟩ : WorkoutRow).startedAt % dayMs ≠
          dayMs - 1) :=
  c1_day_window "A" 0 c1WitnessDB
    [hydrateWorkout c1WitnessDB ⟨0, "A", "Early Workout", 5000, none⟩]
    ⟨0, "A", "Early Workout", 5000, none⟩ (by decide)

/-- C7: each operation fails with `Unauthorized` exactly when no
authenticated identity is present, and an unauthorized `createWorkout`
returns the store unchanged (the reads never mutate the store). -/
theorem c7_fail_closed (a : Option String) (f : Nat → Bool) (d : CreateWorkoutData)
    (date wid : Nat) (db : DB) :
    ((createWorkout a f d db).2 = .error .unauthorized ↔ a = none) ∧
    (createWorkout none f d db).1 = db ∧
    (getUserWorkoutsForDate a date db = .error .unauthorized ↔ a = none) ∧
    (getUserWorkoutById a wid db = .error .unauthorized ↔ a = none) := by
  refine ⟨?_, rfl, ?_, ?_⟩
  · cases a with
    | none => simp [createWorkout]
    | some u => exact iff_of_false (createWorkout_some_not_unauth u f d db) (by simp)
  · cases a with
    | none => simp [getUserWorkoutsForDate]
    | some u => exact iff_of_false (by simp [getUserWorkoutsForDate]) (by simp)
  · cases a with
    | none => simp [getUserWorkoutById]
    | some u => exact iff_of_false (by simp [getUserWorkoutById]) (by simp)

/-- A `map order = range` equation pins each join row's `order` to its
position. -/
theorem order_of_map_range {wes : List WorkoutExerciseRow} {n : Nat}
    (h : wes.map (fun we => we.order) = List.range n) (i : Nat) (hi : i < wes.length) :
    (wes.get ⟨i, hi⟩).order = i := by
  have hl : i < (wes.map (fun we => we.order)).length := by
    rw [List.length_map]
    exact hi
  have h2 := List.getElem_of_eq h hl
  rw [List.getElem_map, List.getElem_range] at h2
  rw [List.get_eq_getElem]
  exact h2

/-- C3: ownership isolation — querying a workout owned by another user
returns the same not-found result as querying an id that exists nowhere, and
the result of `getUserWorkoutById` as user B is identical on two stores that
differ only in workouts owned by other users. -/
theorem c3_ownership_isolation (A B : String) (wid : Nat) (db db2 : DB)
    (hne : B ≠ A)
    (hown : ∀ w ∈ db.workouts, w.id = wid → w.userId = A)
    (hflt : db.workouts.filter (fun w => w.userId == B) =
      db2.workouts.filter (fun w => w.userId == B))
    (hex : db.exercises = db2.exercises)
    (hwe : db.workoutExercises = db2.workoutExercises)
    (hs : db.sets = db2.sets) :
    getUserWorkoutById (some B) wid db = .ok none ∧
    getUserWorkoutById (some B) wid db = getUserWorkoutById (some B) wid db2 := by
  have hnone : db.workouts.find? (fun w => w.id == wid && w.userId == B) = none := by
    rw [List.find?_eq_none]
    intro w hw
    simp only [Bool.and_eq_true, beq_iff_eq, not_and]
    intro hid hB
    have hA := hown w hw hid
    rw [hB] at hA
    exact hne hA
  have hfind : db.workouts.find? (fun w => w.id == wid && w.userId == B) =
      db2.workouts.find? (fun w => w.id == wid && w.userId == B) := by
    rw [find?_owner (fun w => w.id == wid) B db.workouts,
      find?_owner (fun w => w.id == wid) B db2.workouts, hflt]
  have hhydWE : hydrateWE db = hydrateWE db2 := by
    funext x
    rw [hydrateWE, hydrateWE, hex, hs]
  have hhyd : hydrateWorkout db = hydrateWorkout db2 := by
    funext x
    rw [hydrateWorkout, hydrateWorkout, hwe, hhydWE]
  constructor
  · simp only [getUserWorkoutById, hnone]
    rfl
  · simp only [getUserWorkoutById, hfind, hhyd]

/-- A document whose weights are all at scale 2 is unchanged by the store's
rounding. -/
theorem scale2_exercises_fixed (d : CreateWorkoutData) (hws : weightsScale2 d = true) :
    d.exercises.map quantizeExercise = d.exercises := by
  rw [weightsScale2, List.all_eq_true] at hws
  refine map_fixed ?_
  intro ex hex
  have h1 := hws ex hex
  rw [List.all_eq_true] at h1
  cases ex with
  | mk nm ss =>
    simp only [quantizeExercise]
    rw [ExerciseSpec.mk.injEq]
    refine ⟨rfl, map_fixed ?_⟩
    intro s hs
    have h2 := h1 s hs
    cases s with
    | mk ow r =>
      simp only [quantizeSet]
      rw [SetSpec.mk.injEq]
      refine ⟨?_, rfl⟩
      cases ow with
      | none => rfl
      | some wv =>
        have h3 : (quantize2 wv == wv) = true := h2
        rw [Option.map_some', beq_iff_eq.mp h3]

/-- C4 (counterexample to the claim as stated): the valid edit document with
the single weight 10.555 does not round-trip — the `decimal(10, 2)` weight
column rounds it to 10.56 on insert, so the flattened read-back differs from
the input document. -/
theorem c4_counterexample :
    validDoc c4xDoc = true ∧
    createWorkout (some "A") noFail c4xDoc emptyDB = (c4xDb, .ok c4xW) ∧
    getUserWorkoutById (some "A") c4xW.id c4xDb = .ok (some c4xH) ∧
    flattenHydrated c4xH ≠
      ⟨c4xW.id, c4xDoc.name, c4xDoc.startedAt, none, c4xDoc.exercises⟩ := by decide

/-- C4 (amended): for a valid edit document all of whose weights are already
at the `decimal(10, 2)` column's scale (at most two fractional digits),
creating a workout and reading it back through the edit page's flattening
reproduces the document's name, exercise names, set values, and the order of
exercises and sets exactly. -/
theorem c4_round_trip (u : String) (d : CreateWorkoutData) (db dbR : DB)
    (w : WorkoutRow) (h : HydratedWorkout)
    (hwf : db.WF) (hvalid : validDoc d = true) (hws : weightsScale2 d = true)
    (hc : createWorkout (some u) noFail d db = (dbR, .ok w))
    (hr : getUserWorkoutById (some u) w.id dbR = .ok (some h)) :
    flattenHydrated h = ⟨w.id, d.name, d.startedAt, none, d.exercises⟩ := by
  obtain ⟨db2, w2, wes, heq, hweq, hwork, hcat, hwes, hmono, hord, hbnd, hf2, hwf2,
    hread, hhyd, hflat⟩ := createWorkout_spec u d db hwf
  rw [hc] at heq
  injection heq with hdb hok
  injection hok with hw2
  subst hdb
  subst hw2
  rw [hr] at hread
  injection hread with hread
  injection hread with hread
  rw [hread]
  rw [scale2_exercises_fixed d hws] at hflat
  exact hflat

theorem c4_round_trip_witness :
    flattenHydrated c4H =
      ⟨c4W.id, orderedInput.name, orderedInput.startedAt, none, orderedInput.exercises⟩ :=
  c4_round_trip "A" orderedInput emptyDB c4DbR c4W c4H (by decide) (by decide)
    (by decide) (by decide) (by decide)

/-- C9: the repository-level `createWorkout` enforces no edit-document
validation — an input whose exercise has an empty set list succeeds and
produces a join row at that position owning zero set rows. -/
theorem c9_repo_accepts_empty_sets (u : String) (d : CreateWorkoutData) (db : DB)
    (i : Nat) (hwf : db.WF) (hi : i < d.exercises.length)
    (hempty : (d.exercises.getD i ⟨"", []⟩).sets = []) :
    isOkResult (createWorkout (some u) noFail d db).2 = true ∧
    CreatedEmptyExercise db (createWorkout (some u) noFail d db).1 i := by
  obtain ⟨db2, w2, wes, heq, hweq, hwork, hcat, hwes, hmono, hord, hbnd, hf2, hwf2,
    hread, hhyd, hflat⟩ := createWorkout_spec u d db hwf
  obtain ⟨hlen, hR⟩ := List.forall₂_iff_get.mp hf2
  have hilt : i < wes.length := hlen ▸ hi
  constructor
  · rw [heq]
    rfl
  · rw [heq]
    refine ⟨wes.get ⟨i, hilt⟩, ?_, ?_, ?_, ?_⟩
    · rw [show ((db2, Except.ok w2) : DB × Except DbErr WorkoutRow).1 = db2 from rfl, hwes]
      exact List.mem_append_right _ (List.get_mem wes i hilt)
    · intro hmem
      have h1 := (hbnd _ (List.get_mem wes i hilt)).2
      have h2 := (hwf.2.2.2.1 _ hmem).1
      omega
    · exact order_of_map_range hord i hilt
    · have hm := hR i hi hilt
      obtain ⟨_, hnum, _⟩ := hm
      simp only [List.get_eq_getElem] at hnum
      rw [List.getD_eq_getElem _ _ hi] at hempty
      rw [hempty] at hnum
      simp only [List.length_nil, List.range'_zero] at hnum
      exact List.map_eq_nil_iff.mp hnum

theorem c9_repo_accepts_empty_sets_witness :
    isOkResult (createWorkout (some "A") noFail emptySetsInput emptyDB).2 = true ∧
    CreatedEmptyExercise emptyDB (createWorkout (some "A") noFail emptySetsInput emptyDB).1 0 :=
  c9_repo_accepts_empty_sets "A" emptySetsInput emptyDB 0 (by decide) (by decide) (by decide)

theorem c3_ownership_isolation_witness :
    getUserWorkoutById (some "B") 0 cOwnDB = .ok none ∧
    getUserWorkoutById (some "B") 0 cOwnDB = getUserWorkoutById (some "B") 0 cOwnDB2 :=
  c3_ownership_isolation "A" "B" 0 cOwnDB cOwnDB2 (by decide) (by decide) (by decide)
    (by decide) (by decide) (by decide)

/-- C5: `createWorkout` assigns `order` values equal to the zero-based input
positions and `setNumber` values equal to the 1-based input positions, and
both retrievals return join rows sorted ascending by `order`, set lists
sorted ascending by `setNumber`, and (for the day query) workouts sorted
descending by `startedAt`, on any store. -/
theorem c5_ordering_stability (u : String) (d : CreateWorkoutData) (db dbR dbq : DB)
    (w : WorkoutRow) (hwf : db.WF)
    (hc : createWorkout (some u) noFail d db = (dbR, .ok w)) :
    CreateAssignsPositions db dbR d ∧ RetrievalsSorted dbq := by
  constructor
  · obtain ⟨db2, w2, wes, heq, hweq, hwork, hcat, hwes, hmono, hord, hbnd, hf2, hwf2,
      hread, hhyd, hflat⟩ := createWorkout_spec u d db hwf
    rw [hc] at heq
    injection heq with hdb hok
    subst hdb
    exact ⟨wes, hwes, hord, hf2⟩
  · constructor
    · intro u2 date l hq
      simp only [getUserWorkoutsForDate, Except.ok.injEq] at hq
      rw [← hq]
      constructor
      · rw [List.pairwise_map]
        exact sortDesc_pairwise _ _
      · intro h hmem
        obtain ⟨x, _, rfl⟩ := List.mem_map.mp hmem
        exact hydrateWorkout_sorted dbq x
    · intro u2 wid h hq
      simp only [getUserWorkoutById, Except.ok.injEq] at hq
      obtain ⟨x, _, rfl⟩ := Option.map_eq_some'.mp hq
      exact hydrateWorkout_sorted dbq x

theorem c5_ordering_stability_witness :
    CreateAssignsPositions emptyDB c4DbR orderedInput ∧ RetrievalsSorted cOwnDB :=
  c5_ordering_stability "A" orderedInput emptyDB c4DbR cOwnDB c4W (by decide) (by decide)

/-- C6: starting from a catalog in which every name appears at most once,
`createWorkout` preserves that invariant (for any auth state and failure
schedule) and never adds a row for a name already present; and two sequential
creates that both reference the exercise named `nm` leave exactly one catalog
row named `nm`, referenced by two distinct join rows, one per workout. -/
theorem c6_catalog_dedup
    (a : Option String) (f : Nat → Bool) (dg : CreateWorkoutData) (dbg : DB)
    (u1 u2 : String) (d1 d2 : CreateWorkoutData) (db db1 db2 : DB)
    (w1 w2 : WorkoutRow) (nm nmp : String)
    (hinvg : CatalogNamesUnique dbg)
    (hpres : nmp ∈ dbg.exercises.map (fun e => e.name))
    (hwf : db.WF) (hinv : CatalogNamesUnique db)
    (hn1 : nm ∈ d1.exercises.map (fun ex => ex.name))
    (hn2 : nm ∈ d2.exercises.map (fun ex => ex.name))
    (h1 : createWorkout (some u1) noFail d1 db = (db1, .ok w1))
    (h2 : createWorkout (some u2) noFail d2 db1 = (db2, .ok w2)) :
    CatalogNamesUnique (createWorkout a f dg dbg).1 ∧
    ((createWorkout a f dg dbg).1.exercises.filter (fun e => e.name == nmp)).length =
      (dbg.exercises.filter (fun e => e.name == nmp)).length ∧
    (db2.exercises.filter (fun e => e.name == nm)).length = 1 ∧
    SharedCatalogRow db2 nm w1.id w2.id ∧
    w1.id ≠ w2.id := by
  obtain ⟨db1x, w1x, wes1, heq1, hweq1, hwork1, hcat1, hwes1, hmono1, hord1, hbnd1,
    hf21, hwf1, hread1, hhyd1, hflat1⟩ := createWorkout_spec u1 d1 db hwf
  rw [h1] at heq1
  injection heq1 with hdb1 hok1
  injection hok1 with hw1
  subst hdb1
  subst hw1
  obtain ⟨db2x, w2x, wes2, heq2, hweq2, hwork2, hcat2, hwes2, hmono2, hord2, hbnd2,
    hf22, hwf2, hread2, hhyd2, hflat2⟩ := createWorkout_spec u2 d2 db1 hwf1
  rw [h2] at heq2
  injection heq2 with hdb2 hok2
  injection hok2 with hw2
  subst hdb2
  subst hw2
  have hinv1 : CatalogNamesUnique db1 := by
    have := createWorkout_names_unique (some u1) noFail d1 db hinv
    rw [h1] at this
    exact this
  have hinv2 : CatalogNamesUnique db2 := by
    have := createWorkout_names_unique (some u2) noFail d2 db1 hinv1
    rw [h2] at this
    exact this
  -- locate the two join rows referencing nm
  obtain ⟨ex1, hex1mem, hex1name⟩ := List.mem_map.mp hn1
  obtain ⟨we1, hwe1wes, hm1⟩ := forall₂_mem_left hf21 hex1mem
  obtain ⟨e1, hfind1, he1name⟩ := Option.map_eq_some'.mp hm1.1
  have he1mem : e1 ∈ db1.exercises := List.mem_of_find?_eq_some hfind1
  have he1id : e1.id = we1.exerciseId := by simpa using List.find?_some hfind1
  obtain ⟨ex2, hex2mem, hex2name⟩ := List.mem_map.mp hn2
  obtain ⟨we2, hwe2wes, hm2⟩ := forall₂_mem_left hf22 hex2mem
  obtain ⟨e2, hfind2, he2name⟩ := Option.map_eq_some'.mp hm2.1
  have he2mem : e2 ∈ db2.exercises := List.mem_of_find?_eq_some hfind2
  have he2id : e2.id = we2.exerciseId := by simpa using List.find?_some hfind2
  obtain ⟨cat2, hcat2e⟩ := hcat2
  have he1mem2 : e1 ∈ db2.exercises := by
    rw [hcat2e]
    exact List.mem_append_left _ he1mem
  have he1nm : e1.name = nm := by rw [he1name, hex1name]
  have he2nm : e2.name = nm := by rw [he2name, hex2name]
  have he12 : e1 = e2 := catalog_unique_name hinv2 he1mem2 he2mem (by rw [he1nm, he2nm])
  have hfltr : db2.exercises.filter (fun x => x.name == nm) = [e1] := by
    have := catalog_filter_name hinv2 he1mem2
    rw [he1nm] at this
    exact this
  have hwe1mem : we1 ∈ db2.workoutExercises := by
    rw [hwes2]
    refine List.mem_append_left _ ?_
    rw [hwes1]
    exact List.mem_append_right _ hwe1wes
  have hwe2mem : we2 ∈ db2.workoutExercises := by
    rw [hwes2]
    exact List.mem_append_right _ hwe2wes
  have hwe1lt : we1.id < db1.nextId := by
    have := hwf1.2.2.2.1 we1 (by rw [hwes1]; exact List.mem_append_right _ hwe1wes)
    exact this.1
  have hwe2gt : db1.nextId < we2.id := (hbnd2 we2 hwe2wes).2
  refine ⟨createWorkout_names_unique a f dg dbg hinvg,
    createWorkout_count a f dg dbg nmp hpres, ?_, ?_, ?_⟩
  · rw [hfltr]
    rfl
  · refine ⟨e1, we1, we2, hfltr, hwe1mem, hwe2mem, ?_, (hbnd1 we1 hwe1wes).1,
      (hbnd2 we2 hwe2wes).1, he1id.symm, ?_⟩
    · omega
    · rw [he12]
      exact he2id.symm
  · rw [hweq1, hweq2]
    simp only [ne_eq, WorkoutRow.mk.injEq]
    intro h
    omega

theorem c6_catalog_dedup_witness :
    CatalogNamesUnique (createWorkout (some "A") noFail benchInput catXDB).1 ∧
    ((createWorkout (some "A") noFail benchInput catXDB).1.exercises.filter
        (fun e => e.name == "X")).length =
      (catXDB.exercises.filter (fun e => e.name == "X")).length ∧
    (c6Db2.exercises.filter (fun e => e.name == "Bench Press")).length = 1 ∧
    SharedCatalogRow c6Db2 "Bench Press" (⟨0, "A", "W", 0, none⟩ : WorkoutRow).id
      (⟨4, "B", "W", 0, none⟩ : WorkoutRow).id ∧
    (⟨0, "A", "W", 0, none⟩ : WorkoutRow).id ≠ (⟨4, "B", "W", 0, none⟩ : WorkoutRow).id :=
  c6_catalog_dedup (some "A") noFail benchInput catXDB "A" "B" benchInput benchInput
    emptyDB c6Db1 c6Db2 ⟨0, "A", "W", 0, none⟩ ⟨4, "B", "W", 0, none⟩ "Bench Press" "X"
    (by decide) (by decide) (by decide) (by decide) (by decide) (by decide)
    (by decide) (by decide)

/-- C8 (counterexample to the claim as stated): an input with an empty
workout name but a fully valid exercise list is rejected by the create
schema, although none of the claim's listed rejection conditions holds. -/
theorem c8_counterexample :
    claimedBadExercises emptyNameInput.exercises = false ∧
    validateCreate emptyNameInput = some "Workout name is required" := by decide

/-- C8 (amended): the create and update schemas reject exactly the inputs
with an empty or over-long (more than 100 characters) workout name, an empty
exercise list, an exercise with empty name or empty set list, or a set with
non-positive weight or non-positive/non-integer reps; a rejection returns the
first offending field's message before any store call and leaves the store
untouched, and a passing input is handed to the repository unchanged. -/
theorem c8_validation (d dm dn : CreateWorkoutData) (du : UpdateWorkoutData)
    (a : Option String) (f : Nat → Bool) (db : DB) (m : String)
    (hm : validateCreate dm = some m) (hn : validateCreate dn = none) :
    (validateCreate d = none ↔
      (d.name ≠ "" ∧ d.name.length ≤ 100 ∧ claimedBadExercises d.exercises = false)) ∧
    (validateUpdate du = none ↔
      (du.name ≠ "" ∧ du.name.length ≤ 100 ∧ claimedBadExercises du.exercises = false)) ∧
    createWorkoutAction a f dm db = (db, .error m) ∧
    createWorkoutAction a f dn db = actionWrap (createWorkout a f dn db) := by
  refine ⟨validateCreate_none_iff d, validateUpdate_none_iff du, ?_, ?_⟩
  · rw [createWorkoutAction, hm]
  · rw [createWorkoutAction, hn]

theorem c8_validation_witness :
    (validateCreate legDay = none ↔
      (legDay.name ≠ "" ∧ legDay.name.length ≤ 100 ∧
        claimedBadExercises legDay.exercises = false)) ∧
    (validateUpdate updateInput = none ↔
      (updateInput.name ≠ "" ∧ updateInput.name.length ≤ 100 ∧
        claimedBadExercises updateInput.exercises = false)) ∧
    createWorkoutAction (some "A") noFail emptyNameInput emptyDB =
      (emptyDB, .error "Workout name is required") ∧
    createWorkoutAction (some "A") noFail legDay emptyDB =
      actionWrap (createWorkout (some "A") noFail legDay emptyDB) :=
  c8_validation legDay emptyNameInput legDay updateInput (some "A") noFail emptyDB
    "Workout name is required" (by decide) (by decide)

end ExerciseDiary
